import Mathlib

/-!
Verification of the transcript parser / comparative-analytics core.

Shallow embedding of the Python experiment scripts of
`multipath-variants-for-congestion-control` (directory `experiments/`),
restricted to the parsing and analytics code that the specification covers:

* `compare-mp-simple-nada.py`   : `parse_output` and `analyze_results`
* `tcp-compare-mp-nada.py`      : `parse_output` and `analyze_results`
* `tcp-compare-simple-nada.py`  : the two per-line dispatch passes of
  `parse_output`
* `single-path-statistics.py`   : the Jain fairness computation of
  `generate_visualizations`

Numeric samples are decimal literals in the transcripts; they are modelled
exactly as rationals (`ℚ`), IEEE rounding being irrelevant to every claim
settled here.  A Python `float` NaN is modelled as `Option.none`.  A raised
`ValueError` (from `float(...)` on an invalid capture) is modelled by
`Except.error`.
-/

namespace MpNada

/-! ## Character classes of the regex patterns -/

/-- The class `[0-9]` (also `\d`). -/
def isDig (c : Char) : Bool := c.isDigit

/-- The class `[0-9.]`. -/
def isDigDot (c : Char) : Bool := c.isDigit || c = '.'

/-- The class `[0-9.e-]`. -/
def isDigDotEM (c : Char) : Bool := c.isDigit || c = '.' || c = 'e' || c = '-'

/-! ## Numeric conversion, mirroring Python `int(...)` / `float(...)` -/

/-- Python `int(s)` on a nonempty all-digit capture (`\d+` / `[0-9]+`):
always succeeds; standard base-10 value. -/
def natOfDigits (cs : List Char) : ℕ :=
  cs.foldl (fun n c => 10 * n + (c.toNat - '0'.toNat)) 0

/-- Fraction value of the digits after the decimal point. -/
def fracOfDigits (cs : List Char) : ℚ :=
  (natOfDigits cs : ℚ) / (10 : ℚ) ^ cs.length

/-- Exponent suffix of a Python float literal: either nothing, or
`e[-]digits` consuming the whole remainder.  `m` is the mantissa value. -/
def pyFloatExp (m : ℚ) (r : List Char) : Option ℚ :=
  match r with
  | [] => some m
  | 'e' :: r2 =>
    let (eneg, r3) := match r2 with
      | '-' :: t => (true, t)
      | _ => (false, r2)
    let ed := r3.takeWhile isDig
    if ed = [] then none
    else if r3.drop ed.length ≠ [] then none
    else some (if eneg then m / (10 : ℚ) ^ natOfDigits ed else m * (10 : ℚ) ^ natOfDigits ed)
  | _ => none

/-- Python `float(s)` restricted to the alphabet `[0-9.e-]` that the regex
captures can produce (no `+`, `E`, spaces, underscores, `inf` or `nan`
can be captured).  `none` models a raised `ValueError`. -/
def pyFloat (cs : List Char) : Option ℚ :=
  let (neg, cs1) := match cs with
    | '-' :: t => (true, t)
    | _ => (false, cs)
  let ip := cs1.takeWhile isDig
  let r1 := cs1.drop ip.length
  let mant : Option (ℚ × List Char) :=
    match r1 with
    | '.' :: r2 =>
      let fp := r2.takeWhile isDig
      if ip = [] ∧ fp = [] then none
      else some ((natOfDigits ip : ℚ) + fracOfDigits fp, r2.drop fp.length)
    | _ => if ip = [] then none else some ((natOfDigits ip : ℚ), r1)
  match mant with
  | none => none
  | some (m, r) =>
    match pyFloatExp m r with
    | none => none
    | some v => some (if neg then -v else v)

/-! ## `re.search` for the pattern shapes used by the scripts

Every pattern in the scripts has the shape
`lit₁ ( [cls]+ ) lit₂`  (one capture group) or
`lit₁ ( [cls₁]+ ) lit₂ ( [cls₂]+ )`  (two capture groups), possibly with a
leading alternation `(NADA|WebRTC)`.  In all of them the character after a
capture group is not in the group's class, so the greedy `+` never
backtracks: a match at a given start position takes the maximal class run.
`re.search` tries start positions left to right. -/

/-- Strip a literal from the front of `s`; `none` if it is not a prefix. -/
def stripLit : List Char → List Char → Option (List Char)
  | [], s => some s
  | _, [] => none
  | a :: l, b :: s => if a = b then stripLit l s else none

/-- Attempt `lit ([cls]+) suf` at the current position; returns the capture. -/
def tryCap (lit : List Char) (cls : Char → Bool) (suf : List Char)
    (s : List Char) : Option (List Char) :=
  match stripLit lit s with
  | none => none
  | some r =>
    let cap := r.takeWhile cls
    if cap = [] then none
    else if (stripLit suf (r.drop cap.length)).isSome then some cap
    else none

/-- Attempt `lit₁ ([cls₁]+) lit₂ ([cls₂]+)` at the current position. -/
def tryCap2 (lit1 : List Char) (cls1 : Char → Bool) (lit2 : List Char)
    (cls2 : Char → Bool) (s : List Char) : Option (List Char × List Char) :=
  match stripLit lit1 s with
  | none => none
  | some r1 =>
    let c1 := r1.takeWhile cls1
    if c1 = [] then none
    else
      match stripLit lit2 (r1.drop c1.length) with
      | none => none
      | some r2 =>
        let c2 := r2.takeWhile cls2
        if c2 = [] then none else some (c1, c2)

/-- `re.search`: try a position matcher at every start position, leftmost
first (including the end-of-string position). -/
def searchPos {α : Type} (f : List Char → Option α) : List Char → Option α
  | [] => f []
  | c :: t =>
    match f (c :: t) with
    | some r => some r
    | none => searchPos f t

/-- `re.search` for a one-group pattern `lit ([cls]+) suf`. -/
def searchCap (lit : List Char) (cls : Char → Bool) (suf : List Char)
    (s : List Char) : Option (List Char) :=
  searchPos (tryCap lit cls suf) s

/-- `re.search` for a two-group pattern `lit₁ ([cls₁]+) lit₂ ([cls₂]+)`. -/
def searchCap2 (lit1 : List Char) (cls1 : Char → Bool) (lit2 : List Char)
    (cls2 : Char → Bool) (s : List Char) : Option (List Char × List Char) :=
  searchPos (tryCap2 lit1 cls1 lit2 cls2) s

/-- `re.search` for `(A|B) lit ([cls]+) suf` returning group 2: at each
position the alternatives are tried in order, as the regex engine does. -/
def searchAltCap (alts : List (List Char)) (cls : Char → Bool)
    (suf : List Char) (s : List Char) : Option (List Char) :=
  searchPos (fun r => alts.firstM (fun lit => tryCap lit cls suf r)) s

end MpNada

namespace MpNada

/-! ## The Python exception model -/

/-- The only exception reachable in the embedded code: `ValueError` raised
by `float(...)` on an invalid capture. -/
inductive PyErr : Type
  | valueError
  deriving DecidableEq, Repr

/-- `float(group)`: raises `ValueError` when the captured text is not a
valid float literal. -/
def toQ (cs : List Char) : Except PyErr ℚ :=
  match pyFloat cs with
  | some v => Except.ok v
  | none => Except.error PyErr.valueError

/-! ## Parser of `compare-mp-simple-nada.py` (`parse_output`, lines 289-419) -/

/-- Per-path record of `compare-mp-simple-nada.py`:
`{'rate': [], 'rtt': [], 'sent': 0, 'acked': 0}`. -/
structure PathRecA : Type where
  rate : List ℚ := []
  rtt : List ℚ := []
  sent : ℕ := 0
  acked : ℕ := 0
  deriving DecidableEq, Repr

/-- The `stats` dictionary of `compare-mp-simple-nada.py`.  `paths` is an
insertion-ordered association list, as a Python dict is. -/
structure StatsA : Type where
  throughput : List ℚ := []
  delay : List ℚ := []
  loss : List ℚ := []
  jitter : List ℚ := []
  paths : List (ℕ × PathRecA) := []
  pathSwitches : List (ℕ × ℕ) := []
  qualityChanges : List (ℚ × ℚ) := []
  energyMetrics : List ℚ := []
  deriving DecidableEq, Repr

/-- Scan state: the accumulating `stats` plus the `current_path` variable. -/
structure StateA : Type where
  stats : StatsA := {}
  currentPath : Option ℕ := none
  deriving DecidableEq, Repr

/-- Update the record of path `p` in place.  The Python write
`stats['paths'][current_path]` presupposes the key exists, which holds
whenever `current_path` is set (the path-header branch inserts it); on a
missing key this is a no-op where Python would raise `KeyError`, a
difference only on unreachable states (see `runA_currentPath_mem`). -/
def updPathA (p : ℕ) (f : PathRecA → PathRecA) (paths : List (ℕ × PathRecA)) :
    List (ℕ × PathRecA) :=
  paths.map fun kv => if kv.1 = p then (kv.1, f kv.2) else kv

/-- Branches after the per-path section: path switches, quality changes,
energy metrics; an unmatched line is ignored. -/
def stepATail (st : StateA) (l : List Char) : Except PyErr StateA :=
  match searchCap2 "Path switch: from path ".data isDig " to path ".data isDig l with
  | some (c1, c2) =>
    Except.ok { st with stats := { st.stats with
      pathSwitches := st.stats.pathSwitches ++ [(natOfDigits c1, natOfDigits c2)] } }
  | none =>
  match searchCap2 "Quality changed: ".data isDigDot " -> ".data isDigDot l with
  | some (c1, c2) => do
    let v1 ← toQ c1
    let v2 ← toQ c2
    Except.ok { st with stats := { st.stats with
      qualityChanges := st.stats.qualityChanges ++ [(v1, v2)] } }
  | none =>
  match searchCap "Energy efficiency: ".data isDigDot "%".data l with
  | some c => do
    let v ← toQ c
    Except.ok { st with stats := { st.stats with
      energyMetrics := st.stats.energyMetrics ++ [v] } }
  | none => Except.ok st

/-- The `if current_path is not None:` section; falls through to
`stepATail` when no per-path pattern matches. -/
def stepAPath (st : StateA) (p : ℕ) (l : List Char) : Except PyErr StateA :=
  match searchCap "Rate: ".data isDigDot " Mbps".data l with
  | some c => do
    let v ← toQ c
    Except.ok { st with stats := { st.stats with
      paths := updPathA p (fun r => { r with rate := r.rate ++ [v] }) st.stats.paths } }
  | none =>
  match searchCap "RTT: ".data isDigDot " ms".data l with
  | some c => do
    let v ← toQ c
    Except.ok { st with stats := { st.stats with
      paths := updPathA p (fun r => { r with rtt := r.rtt ++ [v] }) st.stats.paths } }
  | none =>
  match searchCap "Packets sent: ".data isDig [] l with
  | some c =>
    Except.ok { st with stats := { st.stats with
      paths := updPathA p (fun r => { r with sent := natOfDigits c }) st.stats.paths } }
  | none =>
  match searchCap "Packets acked: ".data isDig [] l with
  | some c =>
    Except.ok { st with stats := { st.stats with
      paths := updPathA p (fun r => { r with acked := natOfDigits c }) st.stats.paths } }
  | none => stepATail st l

/-- One iteration of the `for line in lines:` loop of
`compare-mp-simple-nada.py`'s `parse_output`. -/
def stepA (st : StateA) (line : String) : Except PyErr StateA :=
  let l := line.data
  match searchCap "Throughput: ".data isDigDot " Mbps".data l with
  | some c => do
    let v ← toQ c
    Except.ok { st with stats := { st.stats with throughput := st.stats.throughput ++ [v] } }
  | none =>
  match searchCap "Mean delay: ".data isDigDotEM " seconds".data l with
  | some c => do
    let v ← toQ c
    Except.ok { st with stats := { st.stats with delay := st.stats.delay ++ [v] } }
  | none =>
  match searchCap "Packet loss: ".data isDigDot "%".data l with
  | some c => do
    let v ← toQ c
    Except.ok { st with stats := { st.stats with loss := st.stats.loss ++ [v] } }
  | none =>
  match searchCap "Mean jitter: ".data isDigDotEM " seconds".data l with
  | some c => do
    let v ← toQ c
    Except.ok { st with stats := { st.stats with jitter := st.stats.jitter ++ [v] } }
  | none =>
  match searchCap "Path ".data isDig ":".data l with
  | some c =>
    let p := natOfDigits c
    Except.ok { st with
      currentPath := some p
      stats := { st.stats with
        paths := if (st.stats.paths.lookup p).isSome then st.stats.paths
                 else st.stats.paths ++ [(p, {})] } }
  | none =>
  match st.currentPath with
  | some p => stepAPath st p l
  | none => stepATail st l

/-- Python `output.split('\n')`: split at every newline, keeping empty
pieces (structural recursion, unlike `String.splitOn`, so that concrete
parses evaluate by `rfl`/`decide`). -/
def splitLines : List Char → List (List Char)
  | [] => [[]]
  | c :: t =>
    if c = '\n' then [] :: splitLines t
    else
      match splitLines t with
      | [] => [[c]]
      | h :: r => (c :: h) :: r

/-- The whole line loop, from the initial state. -/
def runA (lines : List String) : Except PyErr StateA :=
  lines.foldlM stepA {}

/-- `parse_output` of `compare-mp-simple-nada.py`: `None` (here
`Except.ok none`) for an empty/absent transcript, else the scanned stats.
The diagnostic prints are side-effect free and omitted. -/
def parseA (output : String) : Except PyErr (Option StatsA) :=
  if output = "" then Except.ok none
  else do
    let st ← runA ((splitLines output.data).map String.mk)
    Except.ok (some st.stats)

end MpNada

namespace MpNada

/-! ## Parser of `tcp-compare-mp-nada.py` (`parse_output`, lines 303-494) -/

/-- Per-path record of `tcp-compare-mp-nada.py`:
`{'rate': [], 'rtt': [], 'sent': 0, 'acked': 0, 'weight': 0}`.
`normWeight` models the `'norm_weight'` key that `analyze_results` adds
later; before that it reads as `0`, exactly what `.get('norm_weight', 0)`
yields on the missing key. -/
structure PathRecB : Type where
  rate : List ℚ := []
  rtt : List ℚ := []
  sent : ℕ := 0
  acked : ℕ := 0
  weight : ℚ := 0
  normWeight : ℚ := 0
  deriving DecidableEq, Repr

/-- The `buffer_stats` sub-dictionary. -/
structure BufferStatsB : Type where
  length : List ℚ := []
  underruns : ℕ := 0
  averageMs : ℚ := 0
  deriving DecidableEq, Repr

/-- The `tcp_stats` sub-dictionary. -/
structure TcpStatsB : Type where
  cwnd : List ℕ := []
  rto : List ℚ := []
  rtt : List ℚ := []
  retrans : List ℕ := []
  deriving DecidableEq, Repr

/-- The `stats` dictionary of `tcp-compare-mp-nada.py`. -/
structure StatsB : Type where
  throughput : List ℚ := []
  delay : List ℚ := []
  loss : List ℚ := []
  jitter : List ℚ := []
  paths : List (ℕ × PathRecB) := []
  tcpStats : TcpStatsB := {}
  energyMetrics : List ℚ := []
  pathSwitches : List (ℕ × ℕ) := []
  qualityChanges : List (ℚ × ℚ) := []
  bufferStats : BufferStatsB := {}
  deriving DecidableEq, Repr

/-- Scan state of parser B. -/
structure StateB : Type where
  stats : StatsB := {}
  currentPath : Option ℕ := none
  deriving DecidableEq, Repr

/-- In-place update of path `p` (same remark as `updPathA`). -/
def updPathB (p : ℕ) (f : PathRecB → PathRecB) (paths : List (ℕ × PathRecB)) :
    List (ℕ × PathRecB) :=
  paths.map fun kv => if kv.1 = p then (kv.1, f kv.2) else kv

/-- Branches after the per-path section of parser B: TCP stats, energy,
path switches, quality changes, buffer stats; unmatched lines ignored. -/
def stepBTail (st : StateB) (l : List Char) : Except PyErr StateB :=
  match searchCap "TCP congestion window: ".data isDig [] l with
  | some c =>
    Except.ok { st with stats := { st.stats with
      tcpStats := { st.stats.tcpStats with cwnd := st.stats.tcpStats.cwnd ++ [natOfDigits c] } } }
  | none =>
  match searchCap "TCP RTO: ".data isDigDot " ms".data l with
  | some c => do
    let v ← toQ c
    Except.ok { st with stats := { st.stats with
      tcpStats := { st.stats.tcpStats with rto := st.stats.tcpStats.rto ++ [v] } } }
  | none =>
  match searchCap "TCP RTT: ".data isDigDot " ms".data l with
  | some c => do
    let v ← toQ c
    Except.ok { st with stats := { st.stats with
      tcpStats := { st.stats.tcpStats with rtt := st.stats.tcpStats.rtt ++ [v] } } }
  | none =>
  match searchCap "TCP Retransmissions: ".data isDig [] l with
  | some c =>
    Except.ok { st with stats := { st.stats with
      tcpStats := { st.stats.tcpStats with retrans := st.stats.tcpStats.retrans ++ [natOfDigits c] } } }
  | none =>
  match searchCap "network efficiency: ".data isDigDot "%".data l with
  | some c => do
    let v ← toQ c
    Except.ok { st with stats := { st.stats with
      energyMetrics := st.stats.energyMetrics ++ [v] } }
  | none =>
  match searchCap2 "Path switch: from path ".data isDig " to path ".data isDig l with
  | some (c1, c2) =>
    Except.ok { st with stats := { st.stats with
      pathSwitches := st.stats.pathSwitches ++ [(natOfDigits c1, natOfDigits c2)] } }
  | none =>
  match searchCap2 "Quality changed: ".data isDigDot " -> ".data isDigDot l with
  | some (c1, c2) => do
    let v1 ← toQ c1
    let v2 ← toQ c2
    Except.ok { st with stats := { st.stats with
      qualityChanges := st.stats.qualityChanges ++ [(v1, v2)] } }
  | none =>
  match searchCap "Average buffer length: ".data isDigDot " ms".data l with
  | some c => do
    let v ← toQ c
    Except.ok { st with stats := { st.stats with
      bufferStats := { st.stats.bufferStats with
        averageMs := v
        length := st.stats.bufferStats.length ++ [v] } } }
  | none =>
  match searchCap "Buffer underruns: ".data isDig [] l with
  | some c =>
    Except.ok { st with stats := { st.stats with
      bufferStats := { st.stats.bufferStats with underruns := natOfDigits c } } }
  | none => Except.ok st

/-- The `if current_path is not None:` section of parser B (rate, RTT,
packets sent/acked, weight); falls through to `stepBTail`. -/
def stepBPath (st : StateB) (p : ℕ) (l : List Char) : Except PyErr StateB :=
  match searchCap "Rate: ".data isDigDot " Mbps".data l with
  | some c => do
    let v ← toQ c
    Except.ok { st with stats := { st.stats with
      paths := updPathB p (fun r => { r with rate := r.rate ++ [v] }) st.stats.paths } }
  | none =>
  match searchCap "RTT: ".data isDigDot " ms".data l with
  | some c => do
    let v ← toQ c
    Except.ok { st with stats := { st.stats with
      paths := updPathB p (fun r => { r with rtt := r.rtt ++ [v] }) st.stats.paths } }
  | none =>
  match searchCap "Packets sent: ".data isDig [] l with
  | some c =>
    Except.ok { st with stats := { st.stats with
      paths := updPathB p (fun r => { r with sent := natOfDigits c }) st.stats.paths } }
  | none =>
  match searchCap "Packets acked: ".data isDig [] l with
  | some c =>
    Except.ok { st with stats := { st.stats with
      paths := updPathB p (fun r => { r with acked := natOfDigits c }) st.stats.paths } }
  | none =>
  match searchCap "Weight: ".data isDigDot [] l with
  | some c => do
    let v ← toQ c
    Except.ok { st with stats := { st.stats with
      paths := updPathB p (fun r => { r with weight := v }) st.stats.paths } }
  | none => stepBTail st l

/-- One iteration of the line loop of `tcp-compare-mp-nada.py`'s
`parse_output`. -/
def stepB (st : StateB) (line : String) : Except PyErr StateB :=
  let l := line.data
  match searchCap "Throughput: ".data isDigDot " Mbps".data l with
  | some c => do
    let v ← toQ c
    Except.ok { st with stats := { st.stats with throughput := st.stats.throughput ++ [v] } }
  | none =>
  match searchCap "Mean delay: ".data isDigDotEM " seconds".data l with
  | some c => do
    let v ← toQ c
    Except.ok { st with stats := { st.stats with delay := st.stats.delay ++ [v] } }
  | none =>
  match searchCap "Packet loss: ".data isDigDot "%".data l with
  | some c => do
    let v ← toQ c
    Except.ok { st with stats := { st.stats with loss := st.stats.loss ++ [v] } }
  | none =>
  match searchCap "Mean jitter: ".data isDigDotEM " seconds".data l with
  | some c => do
    let v ← toQ c
    Except.ok { st with stats := { st.stats with jitter := st.stats.jitter ++ [v] } }
  | none =>
  match searchCap "Path ".data isDig ":".data l with
  | some c =>
    let p := natOfDigits c
    Except.ok { st with
      currentPath := some p
      stats := { st.stats with
        paths := if (st.stats.paths.lookup p).isSome then st.stats.paths
                 else st.stats.paths ++ [(p, {})] } }
  | none =>
  match st.currentPath with
  | some p => stepBPath st p l
  | none => stepBTail st l

/-- The whole line loop of parser B, from the initial state. -/
def runB (lines : List String) : Except PyErr StateB :=
  lines.foldlM stepB {}

/-- `parse_output` of `tcp-compare-mp-nada.py`. -/
def parseB (output : String) : Except PyErr (Option StatsB) :=
  if output = "" then Except.ok none
  else do
    let st ← runB ((splitLines output.data).map String.mk)
    Except.ok (some st.stats)

end MpNada

namespace MpNada

/-! ## Parser of `tcp-compare-simple-nada.py` (`parse_output`, lines 195-404)

This variant scans the lines twice: a first pass for the generic flow and
buffer statistics and a second pass for the NADA/WebRTC- and TCP-qualified
statistics.  The two per-line dispatch bodies are embedded as `stepC1` and
`stepC2`. -/

/-- The `stats` dictionary of `tcp-compare-simple-nada.py`; the qualified
fields are initialised to Python `None`, modelled as `Option.none`. -/
structure StatsC : Type where
  throughput : List ℚ := []
  delay : List ℚ := []
  loss : List ℚ := []
  jitter : List ℚ := []
  nadaTxPackets : Option ℕ := none
  nadaRxPackets : Option ℕ := none
  nadaTxBytes : Option ℕ := none
  nadaRxBytes : Option ℕ := none
  nadaLoss : Option ℚ := none
  nadaEfficiency : Option ℚ := none
  tcpTxPackets : Option ℕ := none
  tcpRxPackets : Option ℕ := none
  tcpTxBytes : Option ℕ := none
  tcpRxBytes : Option ℕ := none
  tcpLoss : Option ℚ := none
  tcpEfficiency : Option ℚ := none
  bufferUnderruns : Option ℕ := none
  avgBufferLength : Option ℚ := none
  bufferStalls : Option ℕ := none
  bufferVariance : Option ℚ := none
  deriving DecidableEq, Repr

/-- Python `str.startswith`. -/
def startsWithLit (lit : List Char) (l : List Char) : Bool :=
  (stripLit lit l).isSome

/-- First-pass branches from the jitter check on (the generic loss branch
falls through to these when its `startswith` guard blocks the append). -/
def stepC1Jitter (st : StatsC) (l : List Char) : Except PyErr StatsC :=
  match searchCap "Mean jitter: ".data isDigDotEM " seconds".data l with
  | some c => do
    let v ← toQ c
    Except.ok { st with jitter := st.jitter ++ [v] }
  | none =>
  match searchCap "Buffer underruns: ".data isDig [] l with
  | some c => Except.ok { st with bufferUnderruns := some (natOfDigits c) }
  | none =>
  match searchCap "Average buffer length: ".data isDigDot " ms".data l with
  | some c => do
    let v ← toQ c
    Except.ok { st with avgBufferLength := some v }
  | none =>
  match searchCap "Buffer stalls: ".data isDig [] l with
  | some c => Except.ok { st with bufferStalls := some (natOfDigits c) }
  | none =>
  match searchCap "Buffer variance: ".data isDigDot [] l with
  | some c => do
    let v ← toQ c
    Except.ok { st with bufferVariance := some v }
  | none => Except.ok st

/-- One iteration of the first `for line in lines:` loop (lines 264-310).
The generic loss branch appends only when the line does not start with
`"NADA packet loss"` or `"TCP packet loss"`; a line whose append is
suppressed by that guard still falls through to the later checks, since
the `continue` sits inside the `if`. -/
def stepC1 (st : StatsC) (line : String) : Except PyErr StatsC :=
  let l := line.data
  match searchCap "Throughput: ".data isDigDot " Mbps".data l with
  | some c => do
    let v ← toQ c
    Except.ok { st with throughput := st.throughput ++ [v] }
  | none =>
  match searchCap "Mean delay: ".data isDigDotEM " seconds".data l with
  | some c => do
    let v ← toQ c
    Except.ok { st with delay := st.delay ++ [v] }
  | none =>
  match searchCap "Packet loss: ".data isDigDot "%".data l with
  | some c =>
    if ¬ startsWithLit "NADA packet loss".data l ∧ ¬ startsWithLit "TCP packet loss".data l then do
      let v ← toQ c
      Except.ok { st with loss := st.loss ++ [v] }
    else stepC1Jitter st l
  | none => stepC1Jitter st l

/-- One iteration of the second `for line in lines:` loop (lines 313-374):
NADA/WebRTC-qualified then TCP-qualified statistics. -/
def stepC2 (st : StatsC) (line : String) : Except PyErr StatsC :=
  let l := line.data
  match searchAltCap ["NADA Tx Packets: ".data, "WebRTC Tx Packets: ".data] isDig [] l with
  | some c => Except.ok { st with nadaTxPackets := some (natOfDigits c) }
  | none =>
  match searchAltCap ["NADA Rx Packets: ".data, "WebRTC Rx Packets: ".data] isDig [] l with
  | some c => Except.ok { st with nadaRxPackets := some (natOfDigits c) }
  | none =>
  match searchAltCap ["NADA Tx Bytes: ".data, "WebRTC Tx Bytes: ".data] isDig [] l with
  | some c => Except.ok { st with nadaTxBytes := some (natOfDigits c) }
  | none =>
  match searchAltCap ["NADA Rx Bytes: ".data, "WebRTC Rx Bytes: ".data] isDig [] l with
  | some c => Except.ok { st with nadaRxBytes := some (natOfDigits c) }
  | none =>
  match searchAltCap ["NADA packet loss: ".data, "WebRTC packet loss: ".data] isDigDot "%".data l with
  | some c => do
    let v ← toQ c
    Except.ok { st with nadaLoss := some v }
  | none =>
  match searchAltCap ["NADA efficiency: ".data, "WebRTC efficiency: ".data] isDigDot "%".data l with
  | some c => do
    let v ← toQ c
    Except.ok { st with nadaEfficiency := some v }
  | none =>
  match searchCap "TCP Tx Packets: ".data isDig [] l with
  | some c => Except.ok { st with tcpTxPackets := some (natOfDigits c) }
  | none =>
  match searchCap "TCP Rx Packets: ".data isDig [] l with
  | some c => Except.ok { st with tcpRxPackets := some (natOfDigits c) }
  | none =>
  match searchCap "TCP Tx Bytes: ".data isDig [] l with
  | some c => Except.ok { st with tcpTxBytes := some (natOfDigits c) }
  | none =>
  match searchCap "TCP Rx Bytes: ".data isDig [] l with
  | some c => Except.ok { st with tcpRxBytes := some (natOfDigits c) }
  | none =>
  match searchCap "TCP packet loss: ".data isDigDot "%".data l with
  | some c => do
    let v ← toQ c
    Except.ok { st with tcpLoss := some v }
  | none =>
  match searchCap "TCP efficiency: ".data isDigDot "%".data l with
  | some c => do
    let v ← toQ c
    Except.ok { st with tcpEfficiency := some v }
  | none => Except.ok st

end MpNada

namespace MpNada

/-! ## Aggregation helpers -/

/-- `sum(xs) / len(xs) if xs else 0`: the guarded mean used throughout the
`analyze_results` functions. -/
def meanOr0 (xs : List ℚ) : ℚ := if xs = [] then 0 else xs.sum / xs.length

/-- `np.mean(xs)`: NaN (`none`) on an empty sequence. -/
def meanOpt (xs : List ℚ) : Option ℚ :=
  if xs = [] then none else some (xs.sum / xs.length)

/-! ## MOS estimate (`analyze_results`, identical lines in
`compare-mp-simple-nada.py` 441-449 and `tcp-compare-mp-nada.py` 516-524;
the same three-factor formula is applied to the treatment and the baseline
aggregates) -/

/-- `max(0, 1 - (loss / 20))`. -/
def lossFactor (loss : ℚ) : ℚ := max 0 (1 - loss / 20)

/-- `max(0, 1 - (delay / 1))`. -/
def delayFactor (delay : ℚ) : ℚ := max 0 (1 - delay / 1)

/-- `max(0, 1 - (jitter * 20))`. -/
def jitterFactor (jitter : ℚ) : ℚ := max 0 (1 - jitter * 20)

/-- `mos = 1 + 4 * loss_factor * delay_factor * jitter_factor`. -/
def mosScore (loss delay jitter : ℚ) : ℚ :=
  1 + 4 * lossFactor loss * delayFactor delay * jitterFactor jitter

/-- The MOS computed for the multipath (treatment) stats by
`compare-mp-simple-nada.py` lines 430-444. -/
def mpMosA (mp : StatsA) : ℚ :=
  mosScore (meanOr0 mp.loss) (meanOr0 mp.delay) (meanOr0 mp.jitter)

/-- The MOS computed for the simple (baseline) stats by
`compare-mp-simple-nada.py` lines 435-449. -/
def simpleMosA (simple : StatsA) : ℚ :=
  mosScore (meanOr0 simple.loss) (meanOr0 simple.delay) (meanOr0 simple.jitter)

/-! ## Comparison tables

A row of the comparison DataFrame: metric name, treatment value, baseline
value, improvement percentage.  `none` models a float NaN cell. -/

structure CompRow : Type where
  metric : String
  treatment : Option ℚ
  baseline : Option ℚ
  improvement : Option ℚ
  deriving DecidableEq, Repr

/-- The `additional_metrics` loop body shared by the scripts, lower-is-better
direction: NaN unless both values are numbers and the baseline is nonzero,
else `(baseline - treatment) / baseline * 100`. -/
def impLower (m1 m2 : Option ℚ) : Option ℚ :=
  match m1, m2 with
  | some a, some b => if b ≠ 0 then some ((b - a) / b * 100) else none
  | _, _ => none

/-- Higher-is-better direction: `(treatment - baseline) / baseline * 100`. -/
def impHigher (m1 m2 : Option ℚ) : Option ℚ :=
  match m1, m2 with
  | some a, some b => if b ≠ 0 then some ((a - b) / b * 100) else none
  | _, _ => none

/-- `theoretical_max`: sum over paths of the mean rate of every path with a
nonempty rate sequence (`compare-mp-simple-nada.py` lines 488-493). -/
def theoreticalMaxA (paths : List (ℕ × PathRecA)) : ℚ :=
  (paths.map (fun kv => if kv.2.rate ≠ [] then meanOr0 kv.2.rate else 0)).sum

/-- Same for `tcp-compare-mp-nada.py` lines 608-613. -/
def theoreticalMaxB (paths : List (ℕ × PathRecB)) : ℚ :=
  (paths.map (fun kv => if kv.2.rate ≠ [] then meanOr0 kv.2.rate else 0)).sum

/-- The comparison table built by `analyze_results` of
`compare-mp-simple-nada.py` (lines 460-548): five core rows then the six
`additional_metrics` rows.  `np.std` of the two throughput sequences is an
irrational real in general; the two standard deviations enter the rows
only through their values, so they are taken as parameters `mpStd sStd`. -/
def buildTableA (mp simple : StatsA) (mpStd sStd : ℚ) : List CompRow :=
  let mpT := meanOr0 mp.throughput
  let mpD := meanOr0 mp.delay
  let mpL := meanOr0 mp.loss
  let mpJ := meanOr0 mp.jitter
  let sT := meanOr0 simple.throughput
  let sD := meanOr0 simple.delay
  let sL := meanOr0 simple.loss
  let sJ := meanOr0 simple.jitter
  let mpMos := mpMosA mp
  let sMos := simpleMosA simple
  let primaryPathChanges : ℚ := mp.pathSwitches.length
  let tm := theoreticalMaxA mp.paths
  let pur : ℚ := if tm > 0 then mpT / tm * 100 else 0
  let qt : ℚ := mp.qualityChanges.length
  let qs : ℚ := if mp.qualityChanges ≠ [] then max 0 (100 - qt * 5) else 100
  let totalSent : ℚ := ((mp.paths.map (fun kv => kv.2.sent)).sum : ℕ)
  let totalAcked : ℚ := ((mp.paths.map (fun kv => kv.2.acked)).sum : ℕ)
  let mpE : ℚ := if mp.paths ≠ [] then (if totalSent > 0 then totalAcked / totalSent * 100 else 0) else 0
  let sE : ℚ := if sL ≠ 0 then 100 - sL else 100
  [ ⟨"Throughput (Mbps)", some mpT, some sT,
      if sT = 0 then none else some ((mpT - sT) / sT * 100)⟩,
    ⟨"Delay (seconds)", some mpD, some sD,
      if sD = 0 then none else some ((sD - mpD) / sD * 100)⟩,
    ⟨"Loss (%)", some mpL, some sL,
      if sL = 0 then none else some ((sL - mpL) / sL * 100)⟩,
    ⟨"Jitter (seconds)", some mpJ, some sJ,
      if sJ = 0 then none else some ((sJ - mpJ) / sJ * 100)⟩,
    ⟨"Estimated MOS (1-5)", some mpMos, some sMos,
      if sMos = 0 then none else some ((mpMos - sMos) / sMos * 100)⟩,
    ⟨"Throughput Stability (std)", some mpStd, some sStd, impLower (some mpStd) (some sStd)⟩,
    ⟨"Path Failover Events", some primaryPathChanges, none, impHigher (some primaryPathChanges) none⟩,
    ⟨"Path Utilization Ratio (%)", some pur, none, impHigher (some pur) none⟩,
    ⟨"Quality Transitions", some qt, none, impLower (some qt) none⟩,
    ⟨"Quality Smoothness (%)", some qs, none, impHigher (some qs) none⟩,
    ⟨"Energy Efficiency (%)", some mpE, some sE, impHigher (some mpE) (some sE)⟩ ]

/-- The comparison table built by `analyze_results` of
`tcp-compare-mp-nada.py` (lines 504-664): five core rows, two TCP rows,
three `additional_metrics` rows, two buffer rows.  The throughput standard
deviations are parameters as in `buildTableA`. -/
def buildTableB (mp simple : StatsB) (mpStd sStd : ℚ) : List CompRow :=
  let mpT := meanOr0 mp.throughput
  let mpD := meanOr0 mp.delay
  let mpL := meanOr0 mp.loss
  let mpJ := meanOr0 mp.jitter
  let sT := meanOr0 simple.throughput
  let sD := meanOr0 simple.delay
  let sL := meanOr0 simple.loss
  let sJ := meanOr0 simple.jitter
  let mpMos := mosScore mpL mpD mpJ
  let sMos := mosScore sL sD sJ
  let mpCw := meanOr0 (mp.tcpStats.cwnd.map (fun n => (n : ℚ)))
  let sCw := meanOr0 (simple.tcpStats.cwnd.map (fun n => (n : ℚ)))
  let mpRe : ℚ := (mp.tcpStats.retrans.sum : ℕ)
  let sRe : ℚ := (simple.tcpStats.retrans.sum : ℕ)
  let mpBufAvg := mp.bufferStats.averageMs
  let sBufAvg := simple.bufferStats.averageMs
  let mpBufUnd : ℚ := mp.bufferStats.underruns
  let sBufUnd : ℚ := simple.bufferStats.underruns
  let tm := theoreticalMaxB mp.paths
  let pur : ℚ := if tm > 0 then mpT / tm * 100 else 0
  let mpEn := meanOpt mp.energyMetrics
  let sEn := meanOpt simple.energyMetrics
  [ ⟨"Throughput (Mbps)", some mpT, some sT,
      if sT = 0 then none else some ((mpT - sT) / sT * 100)⟩,
    ⟨"Delay (seconds)", some mpD, some sD,
      if sD = 0 then none else some ((sD - mpD) / sD * 100)⟩,
    ⟨"Loss (%)", some mpL, some sL,
      if sL = 0 then none else some ((sL - mpL) / sL * 100)⟩,
    ⟨"Jitter (seconds)", some mpJ, some sJ,
      if sJ = 0 then none else some ((sJ - mpJ) / sJ * 100)⟩,
    ⟨"Estimated MOS (1-5)", some mpMos, some sMos,
      if sMos = 0 then none else some ((mpMos - sMos) / sMos * 100)⟩,
    ⟨"TCP Congestion Window (packets)", some mpCw, some sCw,
      if sCw ≠ 0 then (if sCw > 0 then some ((mpCw - sCw) / sCw * 100) else none) else none⟩,
    ⟨"TCP Retransmissions", some mpRe, some sRe,
      if sRe ≠ 0 then (if sRe > 0 then some ((sRe - mpRe) / sRe * 100) else none) else none⟩,
    ⟨"Throughput Stability (stddev)", some mpStd, some sStd,
      if sStd ≠ 0 then (if sStd > 0 then some ((sStd - mpStd) / sStd * 100) else none) else none⟩,
    ⟨"Path Utilization Ratio (%)", some pur, none, impHigher (some pur) none⟩,
    ⟨"Energy Efficiency (%)", mpEn, sEn, impHigher mpEn sEn⟩,
    ⟨"Buffer Length (ms)", some mpBufAvg, some sBufAvg,
      if sBufAvg ≠ 0 then (if sBufAvg > 0 then some ((mpBufAvg - sBufAvg) / sBufAvg * 100) else none) else none⟩,
    ⟨"Buffer Underruns", some mpBufUnd, some sBufUnd,
      if sBufUnd ≠ 0 then some ((sBufUnd - mpBufUnd) / max 1 sBufUnd * 100) else none⟩ ]

/-! ## Weight normalisation (`tcp-compare-mp-nada.py` lines 546-559) -/

/-- `total_weight`: the sum of the `weight` fields over all paths. -/
def totalWeightB (paths : List (ℕ × PathRecB)) : ℚ :=
  (paths.map (fun kv => kv.2.weight)).sum

/-- The normalisation loop: each path's `norm_weight` becomes
`weight / total_weight` when the total is positive, else `0`. -/
def normalizeWeights (paths : List (ℕ × PathRecB)) : List (ℕ × PathRecB) :=
  paths.map fun kv =>
    (kv.1, { kv.2 with normWeight :=
      (if totalWeightB paths > 0 then kv.2.weight / totalWeightB paths else 0) })

/-! ## Jain's fairness index (`single-path-statistics.py` lines 222-230) -/

/-- `np.sum(xs)**2 / (len(xs) * np.sum(xs**2))`; the float division yields
NaN (`none`) when the denominator is zero. -/
def jainIndex (xs : List ℚ) : Option ℚ :=
  let s := xs.sum
  let q := (xs.map (fun x => x ^ 2)).sum
  if (xs.length : ℚ) * q = 0 then none else some (s ^ 2 / ((xs.length : ℚ) * q))

end MpNada

namespace MpNada

/-! ## Generic lemmas about the matchers -/

theorem stripLit_append (lit r : List Char) : stripLit lit (lit ++ r) = some r := by
  induction lit with
  | nil => simp [stripLit]
  | cons a l ih => simp [stripLit, ih]

theorem stripLit_eq_none_of_not_prefix {lit s : List Char} (h : ¬ lit <+: s) :
    stripLit lit s = none := by
  induction lit generalizing s with
  | nil => exact absurd (List.nil_prefix) h
  | cons a l ih =>
    cases s with
    | nil => rfl
    | cons b t =>
      by_cases hab : a = b
      · subst hab
        simp only [stripLit, if_pos rfl]
        exact ih (fun hp => h (List.cons_prefix_cons.mpr ⟨rfl, hp⟩))
      · simp [stripLit, hab]

theorem stripLit_none_of_mismatch {lit a : List Char} (r : List Char)
    (h1 : ¬ lit <+: a) (h2 : ¬ a <+: lit) : stripLit lit (a ++ r) = none := by
  induction lit generalizing a with
  | nil => exact absurd List.nil_prefix h1
  | cons c l ih =>
    cases a with
    | nil => exact absurd List.nil_prefix h2
    | cons b t =>
      by_cases hcb : c = b
      · subst hcb
        simp only [List.cons_append, stripLit, if_pos rfl]
        exact ih (fun hp => h1 (List.cons_prefix_cons.mpr ⟨rfl, hp⟩))
          (fun hp => h2 (List.cons_prefix_cons.mpr ⟨rfl, hp⟩))
      · simp [stripLit, hcb]

theorem tryCap_none_of_strip {lit s : List Char} {cls : Char → Bool} {suf : List Char}
    (h : stripLit lit s = none) : tryCap lit cls suf s = none := by
  simp [tryCap, h]

theorem tryCap2_none_of_strip {lit1 s : List Char} {cls1 cls2 : Char → Bool}
    {lit2 : List Char} (h : stripLit lit1 s = none) :
    tryCap2 lit1 cls1 lit2 cls2 s = none := by
  simp [tryCap2, h]

theorem takeWhile_eq_self_of_all {cls : Char → Bool} {x : List Char}
    (h : ∀ a ∈ x, cls a = true) : x.takeWhile cls = x := by
  induction x with
  | nil => rfl
  | cons a t ih =>
    rw [List.takeWhile_cons_of_pos (h a (List.mem_cons_self a t)),
      ih (fun b hb => h b (List.mem_cons_of_mem a hb))]

theorem takeWhile_append_of_head {cls : Char → Bool} {x r : List Char}
    (h : ∀ a ∈ x, cls a = true) (hr : ∀ b, r.head? = some b → cls b = false) :
    (x ++ r).takeWhile cls = x := by
  induction x with
  | nil =>
    cases r with
    | nil => rfl
    | cons b t =>
      simp only [List.nil_append]
      rw [List.takeWhile_cons_of_neg]
      simp [hr b rfl]
  | cons a t ih =>
    rw [List.cons_append, List.takeWhile_cons_of_pos (h a (List.mem_cons_self a t)),
      ih (fun b hb => h b (List.mem_cons_of_mem a hb))]

theorem searchPos_eq_of_apply {α : Type} {f : List Char → Option α} {s : List Char}
    {r : α} (h : f s = some r) : searchPos f s = some r := by
  cases s with
  | nil => simpa [searchPos] using h
  | cons c t => simp [searchPos, h]

theorem searchPos_cons_none {α : Type} {f : List Char → Option α} {c : Char}
    {t : List Char} (h : f (c :: t) = none) : searchPos f (c :: t) = searchPos f t := by
  simp [searchPos, h]

end MpNada

namespace MpNada

/-- A position matcher that returns `none` whenever none of the literals in
`L` can be stripped at the position.  (`tryCap lit _ _` is blocked by
`[lit]`, `tryCap2 lit1 _ _ _` by `[lit1]`, an alternation by its list of
alternative leading literals.) -/
def litsBlocked {α : Type} (try1 : List Char → Option α) (L : List (List Char)) : Prop :=
  ∀ t, (∀ lit ∈ L, stripLit lit t = none) → try1 t = none

theorem litsBlocked_tryCap (lit : List Char) (cls : Char → Bool) (suf : List Char) :
    litsBlocked (tryCap lit cls suf) [lit] := by
  intro t h
  exact tryCap_none_of_strip (h lit (List.mem_singleton.mpr rfl))

theorem litsBlocked_tryCap2 (lit1 : List Char) (cls1 : Char → Bool) (lit2 : List Char)
    (cls2 : Char → Bool) : litsBlocked (tryCap2 lit1 cls1 lit2 cls2) [lit1] := by
  intro t h
  exact tryCap2_none_of_strip (h lit1 (List.mem_singleton.mpr rfl))

theorem litsBlocked_alt (alts : List (List Char)) (cls : Char → Bool) (suf : List Char) :
    litsBlocked (fun r => alts.firstM (fun lit => tryCap lit cls suf r)) alts := by
  intro t h
  induction alts with
  | nil => rfl
  | cons a rest ih =>
    have ha : tryCap a cls suf t = none :=
      tryCap_none_of_strip (h a (List.mem_cons_self a rest))
    have hr := ih (fun lit hl => h lit (List.mem_cons_of_mem a hl))
    simp only [List.firstM] at hr ⊢
    rw [ha, hr]
    rfl

theorem searchPos_none_g {α : Type} {try1 : List Char → Option α} {L : List (List Char)}
    (hb : litsBlocked try1 L) (hL0 : ∀ lit ∈ L, lit ≠ []) :
    ∀ g : List Char, (∀ lit ∈ L, ∀ j, j < g.length → ¬ lit <+: g.drop j) →
    searchPos try1 g = none := by
  intro g
  induction g with
  | nil =>
    intro _
    show try1 [] = none
    refine hb [] (fun lit hl => ?_)
    cases hlit : lit with
    | nil => exact absurd hlit (hL0 lit hl)
    | cons c lr => rfl
  | cons b t ih =>
    intro hg
    have h0 : try1 (b :: t) = none :=
      hb _ (fun lit hl =>
        stripLit_eq_none_of_not_prefix (by simpa using hg lit hl 0 (by simp)))
    rw [searchPos_cons_none h0]
    exact ih (fun lit hl j hj => by simpa using hg lit hl (j + 1) (by simpa using hj))

theorem searchPos_none_x {α : Type} {try1 : List Char → Option α} {L : List (List Char)}
    {cls' : Char → Bool}
    (hb : litsBlocked try1 L) (hL0 : ∀ lit ∈ L, lit ≠ [])
    (hLhead : ∀ lit ∈ L, ∀ c, lit.head? = some c → cls' c = false)
    {g : List Char} (hg : ∀ lit ∈ L, ∀ j, j < g.length → ¬ lit <+: g.drop j) :
    ∀ x : List Char, (∀ a ∈ x, cls' a = true) →
    searchPos try1 (x ++ g) = none := by
  intro x
  induction x with
  | nil =>
    intro _
    simpa using searchPos_none_g hb hL0 g hg
  | cons a t ih =>
    intro hx
    have h0 : try1 (a :: (t ++ g)) = none := by
      refine hb _ (fun lit hl => ?_)
      cases hlit : lit with
      | nil => exact absurd hlit (hL0 lit hl)
      | cons c lr =>
        have hc : cls' c = false := hLhead lit hl c (by rw [hlit]; rfl)
        have ha : cls' a = true := hx a (List.mem_cons_self a t)
        have hca : ¬ (c = a) := fun he => by rw [he, ha] at hc; exact Bool.noConfusion hc
        simp [stripLit, hca]
    rw [List.cons_append, searchPos_cons_none h0]
    exact ih (fun b hbm => hx b (List.mem_cons_of_mem a hbm))

theorem searchPos_none_mid {α : Type} {try1 : List Char → Option α} {L : List (List Char)}
    {cls' : Char → Bool}
    (hb : litsBlocked try1 L) (hL0 : ∀ lit ∈ L, lit ≠ [])
    (hLhead : ∀ lit ∈ L, ∀ c, lit.head? = some c → cls' c = false)
    {x g : List Char} (hx : ∀ a ∈ x, cls' a = true)
    (hg : ∀ lit ∈ L, ∀ j, j < g.length → ¬ lit <+: g.drop j) :
    ∀ f : List Char,
    (∀ lit ∈ L, ∀ k, k < f.length → ¬ lit <+: f.drop k ∧ ¬ f.drop k <+: lit) →
    searchPos try1 (f ++ (x ++ g)) = none := by
  intro f
  induction f with
  | nil =>
    intro _
    simpa using searchPos_none_x hb hL0 hLhead hg x hx
  | cons a t ih =>
    intro hf
    have h0 : try1 ((a :: t) ++ (x ++ g)) = none := by
      refine hb _ (fun lit hl => ?_)
      have h := hf lit hl 0 (by simp)
      simp only [List.drop_zero] at h
      exact stripLit_none_of_mismatch (x ++ g) h.1 h.2
    rw [List.cons_append] at h0 ⊢
    rw [searchPos_cons_none h0]
    exact ih (fun lit hl k hk => by simpa using hf lit hl (k + 1) (by simpa using hk))

/-- The pattern's leading literal is nonempty and starts with a character
outside the class `cls'` (a decidable side condition). -/
def headNotCls (cls' : Char → Bool) (lit : List Char) : Bool :=
  match lit.head? with
  | some c => !(cls' c)
  | none => false

theorem headNotCls_spec {cls' : Char → Bool} {lit : List Char}
    (h : headNotCls cls' lit = true) :
    lit ≠ [] ∧ ∀ c, lit.head? = some c → cls' c = false := by
  cases lit with
  | nil => exact absurd h (by simp [headNotCls])
  | cons a t =>
    simp only [headNotCls, List.head?_cons, Bool.not_eq_true'] at h
    refine ⟨by simp, fun c hc => ?_⟩
    obtain rfl : a = c := by simpa using hc
    exact h

/-- `re.search` finds nothing in `f ++ x ++ g` when: the pattern's leading
literal cannot start inside the fixed prefix `f` (mismatch before `x` is
reached), cannot start at a character of `x` (its head is outside `x`'s
class), and cannot start inside the fixed suffix `g`. -/
theorem searchCap_none_mid (lit : List Char) (cls : Char → Bool) (suf : List Char)
    (cls' : Char → Bool) (f x g : List Char)
    (hx : ∀ a ∈ x, cls' a = true) (hhead : headNotCls cls' lit = true)
    (hf : ∀ k, k < f.length → ¬ lit <+: f.drop k ∧ ¬ f.drop k <+: lit)
    (hg : ∀ j, j < g.length → ¬ lit <+: g.drop j) :
    searchCap lit cls suf (f ++ (x ++ g)) = none :=
  searchPos_none_mid (litsBlocked_tryCap lit cls suf)
    (by simpa using (headNotCls_spec hhead).1) (by simpa using (headNotCls_spec hhead).2) hx
    (by simpa using hg) f (by simpa using hf)

/-- Same for a two-group pattern, driven by its first literal. -/
theorem searchCap2_none_mid (lit1 : List Char) (cls1 : Char → Bool) (lit2 : List Char)
    (cls2 : Char → Bool) (cls' : Char → Bool) (f x g : List Char)
    (hx : ∀ a ∈ x, cls' a = true) (hhead : headNotCls cls' lit1 = true)
    (hf : ∀ k, k < f.length → ¬ lit1 <+: f.drop k ∧ ¬ f.drop k <+: lit1)
    (hg : ∀ j, j < g.length → ¬ lit1 <+: g.drop j) :
    searchCap2 lit1 cls1 lit2 cls2 (f ++ (x ++ g)) = none :=
  searchPos_none_mid (litsBlocked_tryCap2 lit1 cls1 lit2 cls2)
    (by simpa using (headNotCls_spec hhead).1) (by simpa using (headNotCls_spec hhead).2) hx
    (by simpa using hg) f (by simpa using hf)

/-- Same for an alternation, with the conditions required of every
alternative's leading literal. -/
theorem searchAltCap_none_mid (alts : List (List Char)) (cls : Char → Bool)
    (suf : List Char) (cls' : Char → Bool) (f x g : List Char)
    (hx : ∀ a ∈ x, cls' a = true) (hhead : alts.all (headNotCls cls') = true)
    (hf : ∀ lit ∈ alts, ∀ k, k < f.length → ¬ lit <+: f.drop k ∧ ¬ f.drop k <+: lit)
    (hg : ∀ lit ∈ alts, ∀ j, j < g.length → ¬ lit <+: g.drop j) :
    searchAltCap alts cls suf (f ++ (x ++ g)) = none := by
  rw [List.all_eq_true] at hhead
  exact searchPos_none_mid (litsBlocked_alt alts cls suf)
    (fun lit hl => (headNotCls_spec (hhead lit hl)).1)
    (fun lit hl => (headNotCls_spec (hhead lit hl)).2) hx hg f hf

/-- Evaluation of a one-group match whose literal sits at position 0:
the capture is the maximal class run of the remainder. -/
theorem tryCap_eval (lit : List Char) (cls : Char → Bool) (suf : List Char)
    (r x : List Char) (ht : r.takeWhile cls = x) (hne : x ≠ [])
    (hs : (stripLit suf (r.drop x.length)).isSome = true) :
    tryCap lit cls suf (lit ++ r) = some x := by
  simp [tryCap, stripLit_append, ht, hs, hne]

theorem searchCap_eval (lit : List Char) (cls : Char → Bool) (suf : List Char)
    (r x : List Char) (ht : r.takeWhile cls = x) (hne : x ≠ [])
    (hs : (stripLit suf (r.drop x.length)).isSome = true) :
    searchCap lit cls suf (lit ++ r) = some x :=
  searchPos_eq_of_apply (tryCap_eval lit cls suf r x ht hne hs)

/-- Evaluation of an alternation whose first alternative matches at 0. -/
theorem searchAltCap_eval_head (lit : List Char) (alts : List (List Char))
    (cls : Char → Bool) (suf : List Char) (r x : List Char)
    (ht : r.takeWhile cls = x) (hne : x ≠ [])
    (hs : (stripLit suf (r.drop x.length)).isSome = true) :
    searchAltCap (lit :: alts) cls suf (lit ++ r) = some x := by
  refine searchPos_eq_of_apply ?_
  simp only [List.firstM, tryCap_eval lit cls suf r x ht hne hs]
  rfl

end MpNada

namespace MpNada

/-! ## Claim C1: behaviour of `parse` on empty/absent input -/

/-- C1 counterexample: on the empty transcript both parsers return Python
`None` (`Except.ok none`), not a Run Record with empty sequences; the
all-default Run Record is not produced. -/
theorem parse_empty_returns_none_not_record :
    parseA "" = Except.ok none ∧ parseA "" ≠ Except.ok (some ({} : StatsA)) ∧
    parseB "" = Except.ok none ∧ parseB "" ≠ Except.ok (some ({} : StatsB)) := by
  refine ⟨rfl, ?_, rfl, ?_⟩
  · intro h
    rw [show parseA "" = Except.ok none from rfl] at h
    simp at h
  · intro h
    rw [show parseB "" = Except.ok none from rfl] at h
    simp at h

/-- C1 (amended): for every empty transcript, `parse_output` returns `None`
without raising; callers treat `None` as missing data (`analyze_results`
bails out on it), so emptiness is not a parsed-but-empty Run Record. -/
theorem parse_empty_returns_none (s : String) (h : s = "") :
    parseA s = Except.ok none ∧ parseB s = Except.ok none := by
  subst h
  exact ⟨rfl, rfl⟩

/-- C1 witness: the amended theorem applied at the empty string. -/
theorem parse_empty_returns_none_witness :
    parseA "" = Except.ok none ∧ parseB "" = Except.ok none :=
  parse_empty_returns_none "" rfl

/-! ## Claim C7: the MOS formula and its value on the worked scenario -/

/-- C7 counterexample: at loss 1.2, delay 0.045, jitter 0.008 the code's
MOS is exactly 4.016272, which is not within 0.001 of the spec's stated
value 4.014 (it rounds to 4.016, not 4.014). -/
theorem mos_value_not_4014 :
    mosScore (12 / 10) (45 / 1000) (8 / 1000) = 4016272 / 1000000 ∧
    ¬ |(4016272 : ℚ) / 1000000 - 4014 / 1000| ≤ 1 / 1000 := by
  constructor
  · norm_num [mosScore, lossFactor, delayFactor, jitterFactor]
  · rw [abs_le]
    norm_num

/-- C7 (amended): the quality score is computed exactly as
`mos = 1 + 4·max(0, 1−loss/20)·max(0, 1−delay/1)·max(0, 1−jitter·20)`,
by the same function for the treatment and the baseline aggregates; at
loss 1.2, delay 0.045, jitter 0.008 the factors are 0.94, 0.955 and 0.84
and the MOS is exactly 4.016272 (≈ 4.016, not 4.014). -/
theorem mos_formula_and_value :
    (∀ loss delay jitter : ℚ, mosScore loss delay jitter =
      1 + 4 * max 0 (1 - loss / 20) * max 0 (1 - delay / 1) * max 0 (1 - jitter * 20)) ∧
    (∀ mp : StatsA, mpMosA mp =
      mosScore (meanOr0 mp.loss) (meanOr0 mp.delay) (meanOr0 mp.jitter)) ∧
    (∀ simple : StatsA, simpleMosA simple =
      mosScore (meanOr0 simple.loss) (meanOr0 simple.delay) (meanOr0 simple.jitter)) ∧
    lossFactor (12 / 10) = 94 / 100 ∧
    delayFactor (45 / 1000) = 955 / 1000 ∧
    jitterFactor (8 / 1000) = 84 / 100 ∧
    mosScore (12 / 10) (45 / 1000) (8 / 1000) = 4016272 / 1000000 := by
  refine ⟨fun _ _ _ => rfl, fun _ => rfl, fun _ => rfl, ?_, ?_, ?_, ?_⟩
  · norm_num [lossFactor]
  · norm_num [delayFactor]
  · norm_num [jitterFactor]
  · norm_num [mosScore, lossFactor, delayFactor, jitterFactor]

/-! ## Claim C10: weight normalisation -/

/-- C10: after `analyze_results` normalises the path weights, a strictly
positive total makes every `norm_weight` equal `weight / total` and the
normalised weights sum to exactly 1; a zero total makes every
`norm_weight` equal 0. -/
theorem norm_weight_spec (paths : List (ℕ × PathRecB)) :
    (totalWeightB paths > 0 →
      (∀ kv ∈ normalizeWeights paths, kv.2.normWeight = kv.2.weight / totalWeightB paths) ∧
      ((normalizeWeights paths).map (fun kv => kv.2.normWeight)).sum = 1) ∧
    (totalWeightB paths = 0 →
      ∀ kv ∈ normalizeWeights paths, kv.2.normWeight = 0) := by
  constructor
  · intro hW
    constructor
    · intro kv hkv
      simp only [normalizeWeights, List.mem_map] at hkv
      obtain ⟨ab, _, rfl⟩ := hkv
      simp [if_pos hW]
    · have hmap : (normalizeWeights paths).map (fun kv => kv.2.normWeight) =
          paths.map (fun kv => kv.2.weight * (totalWeightB paths)⁻¹) := by
        simp only [normalizeWeights, List.map_map]
        refine List.map_congr_left (fun ab _ => ?_)
        simp [if_pos hW, div_eq_mul_inv]
      rw [hmap, List.sum_map_mul_right]
      have : (paths.map (fun kv => kv.2.weight)).sum = totalWeightB paths := rfl
      rw [this, mul_inv_cancel₀ (ne_of_gt hW)]
  · intro hW kv hkv
    simp only [normalizeWeights, List.mem_map] at hkv
    obtain ⟨ab, _, rfl⟩ := hkv
    simp [hW]

/-- C10 witness: weights 2 and 6 normalise to 1/4 and 3/4, summing to 1. -/
theorem norm_weight_spec_witness :
    totalWeightB [(1, ({ weight := 2 } : PathRecB)), (2, { weight := 6 })] > 0 ∧
    ((normalizeWeights [(1, ({ weight := 2 } : PathRecB)), (2, { weight := 6 })]).map
      (fun kv => kv.2.normWeight)).sum = 1 := by
  have hpos : totalWeightB [(1, ({ weight := 2 } : PathRecB)), (2, { weight := 6 })] > 0 := by
    norm_num [totalWeightB]
  exact ⟨hpos, ((norm_weight_spec _).1 hpos).2⟩

end MpNada

namespace MpNada

/-! ## Claim C6: range of Jain's fairness index -/

theorem two_mul_sum_le (a : ℚ) (xs : List ℚ) :
    2 * a * xs.sum ≤ (xs.length : ℚ) * a ^ 2 + (xs.map (fun x => x ^ 2)).sum := by
  induction xs with
  | nil => simp
  | cons b t ih =>
    simp only [List.sum_cons, List.map_cons, List.length_cons]
    push_cast
    nlinarith [two_mul_le_add_sq a b, ih]

/-- The Cauchy-Schwarz bound `(Σx)² ≤ n·Σx²` over a list. -/
theorem sq_sum_le_card_mul (xs : List ℚ) :
    xs.sum ^ 2 ≤ (xs.length : ℚ) * (xs.map (fun x => x ^ 2)).sum := by
  induction xs with
  | nil => simp
  | cons b t ih =>
    simp only [List.sum_cons, List.map_cons, List.length_cons]
    push_cast
    nlinarith [two_mul_sum_le b t, ih]

/-- For nonnegative entries, `Σx² ≤ (Σx)²`. -/
theorem sum_sq_le_sq_sum (xs : List ℚ) (h : ∀ x ∈ xs, 0 ≤ x) :
    (xs.map (fun x => x ^ 2)).sum ≤ xs.sum ^ 2 := by
  induction xs with
  | nil => simp
  | cons b t ih =>
    simp only [List.sum_cons, List.map_cons]
    have hb : 0 ≤ b := h b (List.mem_cons_self b t)
    have ht : ∀ x ∈ t, 0 ≤ x := fun x hx => h x (List.mem_cons_of_mem b hx)
    have hs : 0 ≤ t.sum := List.sum_nonneg ht
    nlinarith [ih ht]

theorem sum_sq_pos (xs : List ℚ) (_h : ∀ x ∈ xs, 0 ≤ x) (hne : ∃ x ∈ xs, x ≠ 0) :
    0 < (xs.map (fun x => x ^ 2)).sum := by
  obtain ⟨x0, hx0, hne0⟩ := hne
  have hx0pos : 0 < x0 ^ 2 := by positivity
  have hmem : x0 ^ 2 ∈ xs.map (fun x => x ^ 2) := List.mem_map_of_mem _ hx0
  have hle : x0 ^ 2 ≤ (xs.map (fun x => x ^ 2)).sum := by
    refine List.single_le_sum (fun y hy => ?_) _ hmem
    obtain ⟨z, _, rfl⟩ := List.mem_map.mp hy
    positivity
  linarith

/-- C6 (amended): on every list of at least two nonnegative per-flow
throughputs that are not all zero, Jain's index `(Σx)²/(n·Σx²)` is defined
and lies in `[1/n, 1]`; it is 1 on `[5, 5]` and 1/2 on `[10, 0]`.  (On an
all-zero list the denominator is zero and the float quotient is NaN.) -/
theorem jain_index_range :
    (∀ xs : List ℚ, 2 ≤ xs.length → (∀ x ∈ xs, 0 ≤ x) → (∃ x ∈ xs, x ≠ 0) →
      jainIndex xs ≠ none ∧
      ∀ f, jainIndex xs = some f → 1 / (xs.length : ℚ) ≤ f ∧ f ≤ 1) ∧
    jainIndex [(5 : ℚ), 5] = some 1 ∧ jainIndex [(10 : ℚ), 0] = some (1 / 2) := by
  refine ⟨fun xs hlen h0 hne => ?_, by norm_num [jainIndex], by norm_num [jainIndex]⟩
  have hq : 0 < (xs.map (fun x => x ^ 2)).sum := sum_sq_pos xs h0 hne
  have hn : (0 : ℚ) < xs.length := by
    have : (0 : ℕ) < xs.length := by omega
    exact_mod_cast this
  have hden : (0 : ℚ) < (xs.length : ℚ) * (xs.map (fun x => x ^ 2)).sum :=
    mul_pos hn hq
  constructor
  · simp [jainIndex, ne_of_gt hden]
  · intro f hf
    simp only [jainIndex, if_neg (ne_of_gt hden)] at hf
    obtain rfl : xs.sum ^ 2 / ((xs.length : ℚ) * (xs.map (fun x => x ^ 2)).sum) = f :=
      Option.some.inj hf
    constructor
    · rw [div_le_div_iff₀ hn hden]
      have := sum_sq_le_sq_sum xs h0
      nlinarith
    · rw [div_le_one hden]
      exact sq_sum_le_card_mul xs

/-- C6 witness: the amended theorem applied to `[5, 3]`, whose index
`64/(2·34) = 16/17` indeed lies in `[1/2, 1]`. -/
theorem jain_index_range_witness :
    jainIndex [(5 : ℚ), 3] = some (16 / 17) ∧
    1 / (([(5 : ℚ), 3] : List ℚ).length : ℚ) ≤ 16 / 17 ∧ (16 / 17 : ℚ) ≤ 1 := by
  have hval : jainIndex [(5 : ℚ), 3] = some (16 / 17) := by norm_num [jainIndex]
  refine ⟨hval, ?_⟩
  exact (jain_index_range.1 [(5 : ℚ), 3] (by decide) (by decide)
    ⟨5, by decide, by decide⟩).2 (16 / 17) hval

/-- C6 counterexample: the claim quantifies over every list of `n ≥ 2`
per-flow throughputs, but two flows that both parsed no throughput line
give `[0, 0]`, on which the code computes the undefined quotient 0/0
(NaN), not a value in `[1/2, 1]`. -/
theorem jain_index_all_zero_nan : jainIndex [(0 : ℚ), 0] = none := by
  norm_num [jainIndex]

end MpNada

namespace MpNada

/-! ## Claim C4: zero baseline gives an undefined improvement -/

/-- C4: in both comparison tables (the core table of
`compare-mp-simple-nada.py` with its six extension rows, and the table of
`tcp-compare-mp-nada.py` with its TCP and buffer extension rows), every
row whose baseline value is exactly 0 carries an undefined (NaN)
improvement, never 0 or an infinity, whatever the treatment value is. -/
theorem improvement_none_of_zero_baseline
    (mpA sA : StatsA) (stdA1 stdA2 : ℚ) (mpB sB : StatsB) (stdB1 stdB2 : ℚ) (r : CompRow) :
    ((r ∈ buildTableA mpA sA stdA1 stdA2) → r.baseline = some 0 → r.improvement = none) ∧
    ((r ∈ buildTableB mpB sB stdB1 stdB2) → r.baseline = some 0 → r.improvement = none) := by
  constructor
  · intro hr h0
    simp only [buildTableA, List.mem_cons, List.mem_singleton, List.not_mem_nil, or_false] at hr
    rcases hr with rfl | rfl | rfl | rfl | rfl | rfl | rfl | rfl | rfl | rfl | rfl <;>
      simp at h0 <;>
      simp [impLower, impHigher, h0]
  · intro hr h0
    simp only [buildTableB, List.mem_cons, List.mem_singleton, List.not_mem_nil, or_false] at hr
    rcases hr with rfl | rfl | rfl | rfl | rfl | rfl | rfl | rfl | rfl | rfl | rfl | rfl <;>
      simp at h0 <;>
      first
      | (simp [impLower, impHigher, h0]; done)
      | (rcases hmp : meanOpt mpB.energyMetrics with _ | a <;> simp [impHigher, hmp, h0])

/-- C4 witness: with empty stats the baseline throughput aggregates to 0
and the throughput row of the core table indeed carries no improvement. -/
theorem improvement_none_of_zero_baseline_witness :
    (CompRow.mk "Throughput (Mbps)" (some 0) (some 0)
      (if (0 : ℚ) = 0 then none else some ((0 - 0) / 0 * 100))).improvement = none :=
  (improvement_none_of_zero_baseline {} {} 0 0 {} {} 0 0 _).1
    (by simp [buildTableA, meanOr0, mpMosA, simpleMosA]) rfl

end MpNada

namespace MpNada

/-! ## Claim C2: crash behaviour on malformed captures -/

/-- A one-group match is conversion-safe when its capture (if any) is a
valid float literal. -/
def capOk (m : Option (List Char)) : Bool :=
  match m with
  | some c => (pyFloat c).isSome
  | none => true

/-- Same for a two-group match. -/
def cap2Ok (m : Option (List Char × List Char)) : Bool :=
  match m with
  | some (c1, c2) => (pyFloat c1).isSome && (pyFloat c2).isSome
  | none => true

/-- A line is conversion-safe for parser A when every float capture that
any of its patterns could produce is a valid float literal (the integer
captures of `\d+`/`[0-9]+` patterns always convert). -/
def lineSafeA (line : String) : Bool :=
  let l := line.data
  capOk (searchCap "Throughput: ".data isDigDot " Mbps".data l) &&
  capOk (searchCap "Mean delay: ".data isDigDotEM " seconds".data l) &&
  capOk (searchCap "Packet loss: ".data isDigDot "%".data l) &&
  capOk (searchCap "Mean jitter: ".data isDigDotEM " seconds".data l) &&
  capOk (searchCap "Rate: ".data isDigDot " Mbps".data l) &&
  capOk (searchCap "RTT: ".data isDigDot " ms".data l) &&
  cap2Ok (searchCap2 "Quality changed: ".data isDigDot " -> ".data isDigDot l) &&
  capOk (searchCap "Energy efficiency: ".data isDigDot "%".data l)

theorem toQ_ok_of_isSome {c : List Char} (h : (pyFloat c).isSome = true) :
    ∃ v, toQ c = Except.ok v := by
  obtain ⟨v, hv⟩ := Option.isSome_iff_exists.mp h
  exact ⟨v, by simp [toQ, hv]⟩

theorem stepATail_ok (st : StateA) (l : List Char)
    (h7 : cap2Ok (searchCap2 "Quality changed: ".data isDigDot " -> ".data isDigDot l) = true)
    (h8 : capOk (searchCap "Energy efficiency: ".data isDigDot "%".data l) = true) :
    ∃ st', stepATail st l = Except.ok st' := by
  unfold stepATail
  cases hsw : searchCap2 "Path switch: from path ".data isDig " to path ".data isDig l with
  | some c =>
    simp only [hsw]
    exact ⟨_, rfl⟩
  | none =>
    simp only [hsw]
    cases hqc : searchCap2 "Quality changed: ".data isDigDot " -> ".data isDigDot l with
    | some c =>
      rw [hqc] at h7
      obtain ⟨c1, c2⟩ := c
      simp only [cap2Ok, Bool.and_eq_true] at h7
      obtain ⟨v1, hv1⟩ := toQ_ok_of_isSome h7.1
      obtain ⟨v2, hv2⟩ := toQ_ok_of_isSome h7.2
      simp only [hqc, hv1, hv2]
      exact ⟨_, rfl⟩
    | none =>
      simp only [hqc]
      cases hen : searchCap "Energy efficiency: ".data isDigDot "%".data l with
      | some c =>
        rw [hen] at h8
        simp only [capOk] at h8
        obtain ⟨v, hv⟩ := toQ_ok_of_isSome h8
        simp only [hen, hv]
        exact ⟨_, rfl⟩
      | none =>
        simp only [hen]
        exact ⟨st, rfl⟩

theorem stepAPath_ok (st : StateA) (p : ℕ) (l : List Char)
    (h5 : capOk (searchCap "Rate: ".data isDigDot " Mbps".data l) = true)
    (h6 : capOk (searchCap "RTT: ".data isDigDot " ms".data l) = true)
    (h7 : cap2Ok (searchCap2 "Quality changed: ".data isDigDot " -> ".data isDigDot l) = true)
    (h8 : capOk (searchCap "Energy efficiency: ".data isDigDot "%".data l) = true) :
    ∃ st', stepAPath st p l = Except.ok st' := by
  unfold stepAPath
  cases hra : searchCap "Rate: ".data isDigDot " Mbps".data l with
  | some c =>
    rw [hra] at h5
    simp only [capOk] at h5
    obtain ⟨v, hv⟩ := toQ_ok_of_isSome h5
    simp only [hra, hv]
    exact ⟨_, rfl⟩
  | none =>
    simp only [hra]
    cases hrt : searchCap "RTT: ".data isDigDot " ms".data l with
    | some c =>
      rw [hrt] at h6
      simp only [capOk] at h6
      obtain ⟨v, hv⟩ := toQ_ok_of_isSome h6
      simp only [hrt, hv]
      exact ⟨_, rfl⟩
    | none =>
      simp only [hrt]
      cases hps : searchCap "Packets sent: ".data isDig [] l with
      | some c =>
        simp only [hps]
        exact ⟨_, rfl⟩
      | none =>
        simp only [hps]
        cases hpa : searchCap "Packets acked: ".data isDig [] l with
        | some c =>
          simp only [hpa]
          exact ⟨_, rfl⟩
        | none =>
          simp only [hpa]
          exact stepATail_ok st l h7 h8

theorem stepA_ok_of_safe (st : StateA) (line : String) (h : lineSafeA line = true) :
    ∃ st', stepA st line = Except.ok st' := by
  unfold lineSafeA at h
  simp only [Bool.and_eq_true] at h
  obtain ⟨⟨⟨⟨⟨⟨⟨h1, h2⟩, h3⟩, h4⟩, h5⟩, h6⟩, h7⟩, h8⟩ := h
  unfold stepA
  cases htp : searchCap "Throughput: ".data isDigDot " Mbps".data line.data with
  | some c =>
    rw [htp] at h1
    simp only [capOk] at h1
    obtain ⟨v, hv⟩ := toQ_ok_of_isSome h1
    simp only [htp, hv]
    exact ⟨_, rfl⟩
  | none =>
    simp only [htp]
    cases hdl : searchCap "Mean delay: ".data isDigDotEM " seconds".data line.data with
    | some c =>
      rw [hdl] at h2
      simp only [capOk] at h2
      obtain ⟨v, hv⟩ := toQ_ok_of_isSome h2
      simp only [hdl, hv]
      exact ⟨_, rfl⟩
    | none =>
      simp only [hdl]
      cases hls : searchCap "Packet loss: ".data isDigDot "%".data line.data with
      | some c =>
        rw [hls] at h3
        simp only [capOk] at h3
        obtain ⟨v, hv⟩ := toQ_ok_of_isSome h3
        simp only [hls, hv]
        exact ⟨_, rfl⟩
      | none =>
        simp only [hls]
        cases hjt : searchCap "Mean jitter: ".data isDigDotEM " seconds".data line.data with
        | some c =>
          rw [hjt] at h4
          simp only [capOk] at h4
          obtain ⟨v, hv⟩ := toQ_ok_of_isSome h4
          simp only [hjt, hv]
          exact ⟨_, rfl⟩
        | none =>
          simp only [hjt]
          cases hph : searchCap "Path ".data isDig ":".data line.data with
          | some c =>
            simp only [hph]
            exact ⟨_, rfl⟩
          | none =>
            simp only [hph]
            cases hcp : st.currentPath with
            | some p => exact stepAPath_ok st p line.data h5 h6 h7 h8
            | none => exact stepATail_ok st line.data h7 h8

theorem foldA_ok (lines : List String) :
    ∀ st0 : StateA, (∀ l ∈ lines, lineSafeA l = true) →
    ∃ st', List.foldlM stepA st0 lines = Except.ok st' := by
  induction lines with
  | nil => exact fun st0 _ => ⟨st0, rfl⟩
  | cons l ls ih =>
    intro st0 h
    obtain ⟨st1, hst1⟩ := stepA_ok_of_safe st0 l (h l (List.mem_cons_self l ls))
    obtain ⟨st2, hst2⟩ := ih st1 (fun a ha => h a (List.mem_cons_of_mem l ha))
    refine ⟨st2, ?_⟩
    rw [List.foldlM_cons, hst1]
    exact hst2

/-- C2 (amended): parser A terminates without raising on every transcript
all of whose numeric captures are valid float literals; in particular,
malformed or partial lines that match no pattern — or match only
integer-capturing patterns — never crash the parse.  (When a float capture
is invalid, `float(...)` raises `ValueError`: see the counterexample.) -/
theorem parse_ok_of_safe_captures (s : String)
    (h : ∀ l ∈ (splitLines s.data).map String.mk, lineSafeA l = true) :
    parseA s ≠ Except.error PyErr.valueError := by
  by_cases hs : s = ""
  · simp [parseA, hs]
  · obtain ⟨st, hst⟩ := foldA_ok ((splitLines s.data).map String.mk) {} h
    rw [parseA, if_neg hs, runA, hst]
    show Except.ok (some st.stats) ≠ Except.error PyErr.valueError
    simp
/-- C2 witness: a transcript of unmatched noise plus one well-formed
throughput line parses without an exception. -/
theorem parse_ok_of_safe_captures_witness :
    parseA "some malformed noise\nThroughput: 9.9 Mbps" ≠ Except.error PyErr.valueError :=
  parse_ok_of_safe_captures "some malformed noise\nThroughput: 9.9 Mbps" (by decide)

/-- C2 counterexample: on the line `"Throughput: . Mbps"` the pattern
`[0-9.]+` captures `"."`, which `float` rejects: the parse raises
`ValueError` instead of terminating normally. -/
theorem parse_raises_on_dot_capture :
    parseA "Throughput: . Mbps" = Except.error PyErr.valueError := rfl

end MpNada

namespace MpNada

/-! ## Helper lemmas for concrete line families -/

theorem stripLit_self (l : List Char) : stripLit l l = some [] := by
  simpa using stripLit_append l []

/-- The suffix literal is empty or starts outside the class (decidable). -/
def headNotClsOrNil (cls : Char → Bool) (suf : List Char) : Bool :=
  match suf.head? with
  | some b => !(cls b)
  | none => true

theorem headNotClsOrNil_spec {cls : Char → Bool} {suf : List Char}
    (h : headNotClsOrNil cls suf = true) :
    ∀ b, suf.head? = some b → cls b = false := by
  cases suf with
  | nil => intro b hb; exact absurd hb (by simp)
  | cons a t =>
    simp only [headNotClsOrNil, List.head?_cons, Bool.not_eq_true'] at h
    intro b hb
    obtain rfl : a = b := by simpa using hb
    exact h

theorem searchCap_self_suffix (lit : List Char) (cls : Char → Bool) (suf x : List Char)
    (hx : ∀ a ∈ x, cls a = true) (hne : x ≠ [])
    (hsuf : headNotClsOrNil cls suf = true) :
    searchCap lit cls suf (lit ++ (x ++ suf)) = some x := by
  refine searchCap_eval lit cls suf (x ++ suf) x
    (takeWhile_append_of_head hx (headNotClsOrNil_spec hsuf)) hne ?_
  rw [List.drop_left, stripLit_self]
  rfl

theorem searchAltCap_self_suffix (lit : List Char) (alts : List (List Char))
    (cls : Char → Bool) (suf x : List Char)
    (hx : ∀ a ∈ x, cls a = true) (hne : x ≠ [])
    (hsuf : headNotClsOrNil cls suf = true) :
    searchAltCap (lit :: alts) cls suf (lit ++ (x ++ suf)) = some x := by
  refine searchAltCap_eval_head lit alts cls suf (x ++ suf) x
    (takeWhile_append_of_head hx (headNotClsOrNil_spec hsuf)) hne ?_
  rw [List.drop_left, stripLit_self]
  rfl

theorem startsWithLit_append (lit r : List Char) : startsWithLit lit (lit ++ r) = true := by
  simp [startsWithLit, stripLit_append]

/-- The line `"NADA packet loss: X%"` for a captured text `X`. -/
def qlineN (x : List Char) : String := ⟨"NADA packet loss: ".data ++ (x ++ "%".data)⟩

/-- The line `"TCP packet loss: X%"` for a captured text `X`. -/
def qlineT (x : List Char) : String := ⟨"TCP packet loss: ".data ++ (x ++ "%".data)⟩

theorem qlineN_data (x : List Char) :
    (qlineN x).data = "NADA packet loss: ".data ++ (x ++ "%".data) := rfl

theorem qlineT_data (x : List Char) :
    (qlineT x).data = "TCP packet loss: ".data ++ (x ++ "%".data) := rfl

end MpNada

namespace MpNada

/-- No pattern of parser A matches a `"NADA packet loss: X%"` line: the state, and in particular the generic loss sequence, is unchanged. -/
theorem stepA_qlineN (x : List Char) (hx : ∀ a ∈ x, isDigDot a = true) (st : StateA) :
    stepA st (qlineN x) = Except.ok st := by
  have nTp : searchCap "Throughput: ".data isDigDot " Mbps".data
      ("NADA packet loss: ".data ++ (x ++ "%".data)) = none :=
    searchCap_none_mid _ _ _ isDigDot _ _ _ hx (by decide) (by decide) (by decide)
  have nDl : searchCap "Mean delay: ".data isDigDotEM " seconds".data
      ("NADA packet loss: ".data ++ (x ++ "%".data)) = none :=
    searchCap_none_mid _ _ _ isDigDot _ _ _ hx (by decide) (by decide) (by decide)
  have nLs : searchCap "Packet loss: ".data isDigDot "%".data
      ("NADA packet loss: ".data ++ (x ++ "%".data)) = none :=
    searchCap_none_mid _ _ _ isDigDot _ _ _ hx (by decide) (by decide) (by decide)
  have nJt : searchCap "Mean jitter: ".data isDigDotEM " seconds".data
      ("NADA packet loss: ".data ++ (x ++ "%".data)) = none :=
    searchCap_none_mid _ _ _ isDigDot _ _ _ hx (by decide) (by decide) (by decide)
  have nPath : searchCap "Path ".data isDig ":".data
      ("NADA packet loss: ".data ++ (x ++ "%".data)) = none :=
    searchCap_none_mid _ _ _ isDigDot _ _ _ hx (by decide) (by decide) (by decide)
  have nRate : searchCap "Rate: ".data isDigDot " Mbps".data
      ("NADA packet loss: ".data ++ (x ++ "%".data)) = none :=
    searchCap_none_mid _ _ _ isDigDot _ _ _ hx (by decide) (by decide) (by decide)
  have nRtt : searchCap "RTT: ".data isDigDot " ms".data
      ("NADA packet loss: ".data ++ (x ++ "%".data)) = none :=
    searchCap_none_mid _ _ _ isDigDot _ _ _ hx (by decide) (by decide) (by decide)
  have nSent : searchCap "Packets sent: ".data isDig []
      ("NADA packet loss: ".data ++ (x ++ "%".data)) = none :=
    searchCap_none_mid _ _ _ isDigDot _ _ _ hx (by decide) (by decide) (by decide)
  have nAcked : searchCap "Packets acked: ".data isDig []
      ("NADA packet loss: ".data ++ (x ++ "%".data)) = none :=
    searchCap_none_mid _ _ _ isDigDot _ _ _ hx (by decide) (by decide) (by decide)
  have nSw : searchCap2 "Path switch: from path ".data isDig " to path ".data isDig
      ("NADA packet loss: ".data ++ (x ++ "%".data)) = none :=
    searchCap2_none_mid _ _ _ _ isDigDot _ _ _ hx (by decide) (by decide) (by decide)
  have nQc : searchCap2 "Quality changed: ".data isDigDot " -> ".data isDigDot
      ("NADA packet loss: ".data ++ (x ++ "%".data)) = none :=
    searchCap2_none_mid _ _ _ _ isDigDot _ _ _ hx (by decide) (by decide) (by decide)
  have nEnergy : searchCap "Energy efficiency: ".data isDigDot "%".data
      ("NADA packet loss: ".data ++ (x ++ "%".data)) = none :=
    searchCap_none_mid _ _ _ isDigDot _ _ _ hx (by decide) (by decide) (by decide)
  unfold stepA stepAPath stepATail
  simp only [qlineN_data, nTp, nDl, nLs, nJt, nPath, nRate, nRtt, nSent, nAcked, nSw, nQc, nEnergy]
  cases st.currentPath <;> rfl

/-- No pattern of parser A matches a `"TCP packet loss: X%"` line: the state, and in particular the generic loss sequence, is unchanged. -/
theorem stepA_qlineT (x : List Char) (hx : ∀ a ∈ x, isDigDot a = true) (st : StateA) :
    stepA st (qlineT x) = Except.ok st := by
  have nTp : searchCap "Throughput: ".data isDigDot " Mbps".data
      ("TCP packet loss: ".data ++ (x ++ "%".data)) = none :=
    searchCap_none_mid _ _ _ isDigDot _ _ _ hx (by decide) (by decide) (by decide)
  have nDl : searchCap "Mean delay: ".data isDigDotEM " seconds".data
      ("TCP packet loss: ".data ++ (x ++ "%".data)) = none :=
    searchCap_none_mid _ _ _ isDigDot _ _ _ hx (by decide) (by decide) (by decide)
  have nLs : searchCap "Packet loss: ".data isDigDot "%".data
      ("TCP packet loss: ".data ++ (x ++ "%".data)) = none :=
    searchCap_none_mid _ _ _ isDigDot _ _ _ hx (by decide) (by decide) (by decide)
  have nJt : searchCap "Mean jitter: ".data isDigDotEM " seconds".data
      ("TCP packet loss: ".data ++ (x ++ "%".data)) = none :=
    searchCap_none_mid _ _ _ isDigDot _ _ _ hx (by decide) (by decide) (by decide)
  have nPath : searchCap "Path ".data isDig ":".data
      ("TCP packet loss: ".data ++ (x ++ "%".data)) = none :=
    searchCap_none_mid _ _ _ isDigDot _ _ _ hx (by decide) (by decide) (by decide)
  have nRate : searchCap "Rate: ".data isDigDot " Mbps".data
      ("TCP packet loss: ".data ++ (x ++ "%".data)) = none :=
    searchCap_none_mid _ _ _ isDigDot _ _ _ hx (by decide) (by decide) (by decide)
  have nRtt : searchCap "RTT: ".data isDigDot " ms".data
      ("TCP packet loss: ".data ++ (x ++ "%".data)) = none :=
    searchCap_none_mid _ _ _ isDigDot _ _ _ hx (by decide) (by decide) (by decide)
  have nSent : searchCap "Packets sent: ".data isDig []
      ("TCP packet loss: ".data ++ (x ++ "%".data)) = none :=
    searchCap_none_mid _ _ _ isDigDot _ _ _ hx (by decide) (by decide) (by decide)
  have nAcked : searchCap "Packets acked: ".data isDig []
      ("TCP packet loss: ".data ++ (x ++ "%".data)) = none :=
    searchCap_none_mid _ _ _ isDigDot _ _ _ hx (by decide) (by decide) (by decide)
  have nSw : searchCap2 "Path switch: from path ".data isDig " to path ".data isDig
      ("TCP packet loss: ".data ++ (x ++ "%".data)) = none :=
    searchCap2_none_mid _ _ _ _ isDigDot _ _ _ hx (by decide) (by decide) (by decide)
  have nQc : searchCap2 "Quality changed: ".data isDigDot " -> ".data isDigDot
      ("TCP packet loss: ".data ++ (x ++ "%".data)) = none :=
    searchCap2_none_mid _ _ _ _ isDigDot _ _ _ hx (by decide) (by decide) (by decide)
  have nEnergy : searchCap "Energy efficiency: ".data isDigDot "%".data
      ("TCP packet loss: ".data ++ (x ++ "%".data)) = none :=
    searchCap_none_mid _ _ _ isDigDot _ _ _ hx (by decide) (by decide) (by decide)
  unfold stepA stepAPath stepATail
  simp only [qlineT_data, nTp, nDl, nLs, nJt, nPath, nRate, nRtt, nSent, nAcked, nSw, nQc, nEnergy]
  cases st.currentPath <;> rfl

/-- No pattern of parser B matches a `"NADA packet loss: X%"` line. -/
theorem stepB_qlineN (x : List Char) (hx : ∀ a ∈ x, isDigDot a = true) (st : StateB) :
    stepB st (qlineN x) = Except.ok st := by
  have nTp : searchCap "Throughput: ".data isDigDot " Mbps".data
      ("NADA packet loss: ".data ++ (x ++ "%".data)) = none :=
    searchCap_none_mid _ _ _ isDigDot _ _ _ hx (by decide) (by decide) (by decide)
  have nDl : searchCap "Mean delay: ".data isDigDotEM " seconds".data
      ("NADA packet loss: ".data ++ (x ++ "%".data)) = none :=
    searchCap_none_mid _ _ _ isDigDot _ _ _ hx (by decide) (by decide) (by decide)
  have nLs : searchCap "Packet loss: ".data isDigDot "%".data
      ("NADA packet loss: ".data ++ (x ++ "%".data)) = none :=
    searchCap_none_mid _ _ _ isDigDot _ _ _ hx (by decide) (by decide) (by decide)
  have nJt : searchCap "Mean jitter: ".data isDigDotEM " seconds".data
      ("NADA packet loss: ".data ++ (x ++ "%".data)) = none :=
    searchCap_none_mid _ _ _ isDigDot _ _ _ hx (by decide) (by decide) (by decide)
  have nPath : searchCap "Path ".data isDig ":".data
      ("NADA packet loss: ".data ++ (x ++ "%".data)) = none :=
    searchCap_none_mid _ _ _ isDigDot _ _ _ hx (by decide) (by decide) (by decide)
  have nRate : searchCap "Rate: ".data isDigDot " Mbps".data
      ("NADA packet loss: ".data ++ (x ++ "%".data)) = none :=
    searchCap_none_mid _ _ _ isDigDot _ _ _ hx (by decide) (by decide) (by decide)
  have nRtt : searchCap "RTT: ".data isDigDot " ms".data
      ("NADA packet loss: ".data ++ (x ++ "%".data)) = none :=
    searchCap_none_mid _ _ _ isDigDot _ _ _ hx (by decide) (by decide) (by decide)
  have nSent : searchCap "Packets sent: ".data isDig []
      ("NADA packet loss: ".data ++ (x ++ "%".data)) = none :=
    searchCap_none_mid _ _ _ isDigDot _ _ _ hx (by decide) (by decide) (by decide)
  have nAcked : searchCap "Packets acked: ".data isDig []
      ("NADA packet loss: ".data ++ (x ++ "%".data)) = none :=
    searchCap_none_mid _ _ _ isDigDot _ _ _ hx (by decide) (by decide) (by decide)
  have nWeight : searchCap "Weight: ".data isDigDot []
      ("NADA packet loss: ".data ++ (x ++ "%".data)) = none :=
    searchCap_none_mid _ _ _ isDigDot _ _ _ hx (by decide) (by decide) (by decide)
  have nCwnd : searchCap "TCP congestion window: ".data isDig []
      ("NADA packet loss: ".data ++ (x ++ "%".data)) = none :=
    searchCap_none_mid _ _ _ isDigDot _ _ _ hx (by decide) (by decide) (by decide)
  have nRto : searchCap "TCP RTO: ".data isDigDot " ms".data
      ("NADA packet loss: ".data ++ (x ++ "%".data)) = none :=
    searchCap_none_mid _ _ _ isDigDot _ _ _ hx (by decide) (by decide) (by decide)
  have nTrtt : searchCap "TCP RTT: ".data isDigDot " ms".data
      ("NADA packet loss: ".data ++ (x ++ "%".data)) = none :=
    searchCap_none_mid _ _ _ isDigDot _ _ _ hx (by decide) (by decide) (by decide)
  have nRetr : searchCap "TCP Retransmissions: ".data isDig []
      ("NADA packet loss: ".data ++ (x ++ "%".data)) = none :=
    searchCap_none_mid _ _ _ isDigDot _ _ _ hx (by decide) (by decide) (by decide)
  have nNeteff : searchCap "network efficiency: ".data isDigDot "%".data
      ("NADA packet loss: ".data ++ (x ++ "%".data)) = none :=
    searchCap_none_mid _ _ _ isDigDot _ _ _ hx (by decide) (by decide) (by decide)
  have nSw : searchCap2 "Path switch: from path ".data isDig " to path ".data isDig
      ("NADA packet loss: ".data ++ (x ++ "%".data)) = none :=
    searchCap2_none_mid _ _ _ _ isDigDot _ _ _ hx (by decide) (by decide) (by decide)
  have nQc : searchCap2 "Quality changed: ".data isDigDot " -> ".data isDigDot
      ("NADA packet loss: ".data ++ (x ++ "%".data)) = none :=
    searchCap2_none_mid _ _ _ _ isDigDot _ _ _ hx (by decide) (by decide) (by decide)
  have nAvgbuf : searchCap "Average buffer length: ".data isDigDot " ms".data
      ("NADA packet loss: ".data ++ (x ++ "%".data)) = none :=
    searchCap_none_mid _ _ _ isDigDot _ _ _ hx (by decide) (by decide) (by decide)
  have nBufund : searchCap "Buffer underruns: ".data isDig []
      ("NADA packet loss: ".data ++ (x ++ "%".data)) = none :=
    searchCap_none_mid _ _ _ isDigDot _ _ _ hx (by decide) (by decide) (by decide)
  unfold stepB stepBPath stepBTail
  simp only [qlineN_data, nTp, nDl, nLs, nJt, nPath, nRate, nRtt, nSent, nAcked, nWeight, nCwnd, nRto, nTrtt, nRetr, nNeteff, nSw, nQc, nAvgbuf, nBufund]
  cases st.currentPath <;> rfl

/-- No pattern of parser B matches a `"TCP packet loss: X%"` line. -/
theorem stepB_qlineT (x : List Char) (hx : ∀ a ∈ x, isDigDot a = true) (st : StateB) :
    stepB st (qlineT x) = Except.ok st := by
  have nTp : searchCap "Throughput: ".data isDigDot " Mbps".data
      ("TCP packet loss: ".data ++ (x ++ "%".data)) = none :=
    searchCap_none_mid _ _ _ isDigDot _ _ _ hx (by decide) (by decide) (by decide)
  have nDl : searchCap "Mean delay: ".data isDigDotEM " seconds".data
      ("TCP packet loss: ".data ++ (x ++ "%".data)) = none :=
    searchCap_none_mid _ _ _ isDigDot _ _ _ hx (by decide) (by decide) (by decide)
  have nLs : searchCap "Packet loss: ".data isDigDot "%".data
      ("TCP packet loss: ".data ++ (x ++ "%".data)) = none :=
    searchCap_none_mid _ _ _ isDigDot _ _ _ hx (by decide) (by decide) (by decide)
  have nJt : searchCap "Mean jitter: ".data isDigDotEM " seconds".data
      ("TCP packet loss: ".data ++ (x ++ "%".data)) = none :=
    searchCap_none_mid _ _ _ isDigDot _ _ _ hx (by decide) (by decide) (by decide)
  have nPath : searchCap "Path ".data isDig ":".data
      ("TCP packet loss: ".data ++ (x ++ "%".data)) = none :=
    searchCap_none_mid _ _ _ isDigDot _ _ _ hx (by decide) (by decide) (by decide)
  have nRate : searchCap "Rate: ".data isDigDot " Mbps".data
      ("TCP packet loss: ".data ++ (x ++ "%".data)) = none :=
    searchCap_none_mid _ _ _ isDigDot _ _ _ hx (by decide) (by decide) (by decide)
  have nRtt : searchCap "RTT: ".data isDigDot " ms".data
      ("TCP packet loss: ".data ++ (x ++ "%".data)) = none :=
    searchCap_none_mid _ _ _ isDigDot _ _ _ hx (by decide) (by decide) (by decide)
  have nSent : searchCap "Packets sent: ".data isDig []
      ("TCP packet loss: ".data ++ (x ++ "%".data)) = none :=
    searchCap_none_mid _ _ _ isDigDot _ _ _ hx (by decide) (by decide) (by decide)
  have nAcked : searchCap "Packets acked: ".data isDig []
      ("TCP packet loss: ".data ++ (x ++ "%".data)) = none :=
    searchCap_none_mid _ _ _ isDigDot _ _ _ hx (by decide) (by decide) (by decide)
  have nWeight : searchCap "Weight: ".data isDigDot []
      ("TCP packet loss: ".data ++ (x ++ "%".data)) = none :=
    searchCap_none_mid _ _ _ isDigDot _ _ _ hx (by decide) (by decide) (by decide)
  have nCwnd : searchCap "TCP congestion window: ".data isDig []
      ("TCP packet loss: ".data ++ (x ++ "%".data)) = none :=
    searchCap_none_mid _ _ _ isDigDot _ _ _ hx (by decide) (by decide) (by decide)
  have nRto : searchCap "TCP RTO: ".data isDigDot " ms".data
      ("TCP packet loss: ".data ++ (x ++ "%".data)) = none :=
    searchCap_none_mid _ _ _ isDigDot _ _ _ hx (by decide) (by decide) (by decide)
  have nTrtt : searchCap "TCP RTT: ".data isDigDot " ms".data
      ("TCP packet loss: ".data ++ (x ++ "%".data)) = none :=
    searchCap_none_mid _ _ _ isDigDot _ _ _ hx (by decide) (by decide) (by decide)
  have nRetr : searchCap "TCP Retransmissions: ".data isDig []
      ("TCP packet loss: ".data ++ (x ++ "%".data)) = none :=
    searchCap_none_mid _ _ _ isDigDot _ _ _ hx (by decide) (by decide) (by decide)
  have nNeteff : searchCap "network efficiency: ".data isDigDot "%".data
      ("TCP packet loss: ".data ++ (x ++ "%".data)) = none :=
    searchCap_none_mid _ _ _ isDigDot _ _ _ hx (by decide) (by decide) (by decide)
  have nSw : searchCap2 "Path switch: from path ".data isDig " to path ".data isDig
      ("TCP packet loss: ".data ++ (x ++ "%".data)) = none :=
    searchCap2_none_mid _ _ _ _ isDigDot _ _ _ hx (by decide) (by decide) (by decide)
  have nQc : searchCap2 "Quality changed: ".data isDigDot " -> ".data isDigDot
      ("TCP packet loss: ".data ++ (x ++ "%".data)) = none :=
    searchCap2_none_mid _ _ _ _ isDigDot _ _ _ hx (by decide) (by decide) (by decide)
  have nAvgbuf : searchCap "Average buffer length: ".data isDigDot " ms".data
      ("TCP packet loss: ".data ++ (x ++ "%".data)) = none :=
    searchCap_none_mid _ _ _ isDigDot _ _ _ hx (by decide) (by decide) (by decide)
  have nBufund : searchCap "Buffer underruns: ".data isDig []
      ("TCP packet loss: ".data ++ (x ++ "%".data)) = none :=
    searchCap_none_mid _ _ _ isDigDot _ _ _ hx (by decide) (by decide) (by decide)
  unfold stepB stepBPath stepBTail
  simp only [qlineT_data, nTp, nDl, nLs, nJt, nPath, nRate, nRtt, nSent, nAcked, nWeight, nCwnd, nRto, nTrtt, nRetr, nNeteff, nSw, nQc, nAvgbuf, nBufund]
  cases st.currentPath <;> rfl

/-- The first pass of parser C leaves the stats unchanged on a `"NADA packet loss: X%"` line; in particular nothing is appended to the generic loss sequence. -/
theorem stepC1_qlineN (x : List Char) (hx : ∀ a ∈ x, isDigDot a = true) (st : StatsC) :
    stepC1 st (qlineN x) = Except.ok st := by
  have nTp : searchCap "Throughput: ".data isDigDot " Mbps".data
      ("NADA packet loss: ".data ++ (x ++ "%".data)) = none :=
    searchCap_none_mid _ _ _ isDigDot _ _ _ hx (by decide) (by decide) (by decide)
  have nDl : searchCap "Mean delay: ".data isDigDotEM " seconds".data
      ("NADA packet loss: ".data ++ (x ++ "%".data)) = none :=
    searchCap_none_mid _ _ _ isDigDot _ _ _ hx (by decide) (by decide) (by decide)
  have nLs : searchCap "Packet loss: ".data isDigDot "%".data
      ("NADA packet loss: ".data ++ (x ++ "%".data)) = none :=
    searchCap_none_mid _ _ _ isDigDot _ _ _ hx (by decide) (by decide) (by decide)
  have nJt : searchCap "Mean jitter: ".data isDigDotEM " seconds".data
      ("NADA packet loss: ".data ++ (x ++ "%".data)) = none :=
    searchCap_none_mid _ _ _ isDigDot _ _ _ hx (by decide) (by decide) (by decide)
  have nBufund : searchCap "Buffer underruns: ".data isDig []
      ("NADA packet loss: ".data ++ (x ++ "%".data)) = none :=
    searchCap_none_mid _ _ _ isDigDot _ _ _ hx (by decide) (by decide) (by decide)
  have nAvgbuf : searchCap "Average buffer length: ".data isDigDot " ms".data
      ("NADA packet loss: ".data ++ (x ++ "%".data)) = none :=
    searchCap_none_mid _ _ _ isDigDot _ _ _ hx (by decide) (by decide) (by decide)
  have nBufstl : searchCap "Buffer stalls: ".data isDig []
      ("NADA packet loss: ".data ++ (x ++ "%".data)) = none :=
    searchCap_none_mid _ _ _ isDigDot _ _ _ hx (by decide) (by decide) (by decide)
  have nBufvar : searchCap "Buffer variance: ".data isDigDot []
      ("NADA packet loss: ".data ++ (x ++ "%".data)) = none :=
    searchCap_none_mid _ _ _ isDigDot _ _ _ hx (by decide) (by decide) (by decide)
  unfold stepC1 stepC1Jitter
  simp only [qlineN_data, nTp, nDl, nLs, nJt, nBufund, nAvgbuf, nBufstl, nBufvar]

/-- The first pass of parser C leaves the stats unchanged on a `"TCP packet loss: X%"` line; in particular nothing is appended to the generic loss sequence. -/
theorem stepC1_qlineT (x : List Char) (hx : ∀ a ∈ x, isDigDot a = true) (st : StatsC) :
    stepC1 st (qlineT x) = Except.ok st := by
  have nTp : searchCap "Throughput: ".data isDigDot " Mbps".data
      ("TCP packet loss: ".data ++ (x ++ "%".data)) = none :=
    searchCap_none_mid _ _ _ isDigDot _ _ _ hx (by decide) (by decide) (by decide)
  have nDl : searchCap "Mean delay: ".data isDigDotEM " seconds".data
      ("TCP packet loss: ".data ++ (x ++ "%".data)) = none :=
    searchCap_none_mid _ _ _ isDigDot _ _ _ hx (by decide) (by decide) (by decide)
  have nLs : searchCap "Packet loss: ".data isDigDot "%".data
      ("TCP packet loss: ".data ++ (x ++ "%".data)) = none :=
    searchCap_none_mid _ _ _ isDigDot _ _ _ hx (by decide) (by decide) (by decide)
  have nJt : searchCap "Mean jitter: ".data isDigDotEM " seconds".data
      ("TCP packet loss: ".data ++ (x ++ "%".data)) = none :=
    searchCap_none_mid _ _ _ isDigDot _ _ _ hx (by decide) (by decide) (by decide)
  have nBufund : searchCap "Buffer underruns: ".data isDig []
      ("TCP packet loss: ".data ++ (x ++ "%".data)) = none :=
    searchCap_none_mid _ _ _ isDigDot _ _ _ hx (by decide) (by decide) (by decide)
  have nAvgbuf : searchCap "Average buffer length: ".data isDigDot " ms".data
      ("TCP packet loss: ".data ++ (x ++ "%".data)) = none :=
    searchCap_none_mid _ _ _ isDigDot _ _ _ hx (by decide) (by decide) (by decide)
  have nBufstl : searchCap "Buffer stalls: ".data isDig []
      ("TCP packet loss: ".data ++ (x ++ "%".data)) = none :=
    searchCap_none_mid _ _ _ isDigDot _ _ _ hx (by decide) (by decide) (by decide)
  have nBufvar : searchCap "Buffer variance: ".data isDigDot []
      ("TCP packet loss: ".data ++ (x ++ "%".data)) = none :=
    searchCap_none_mid _ _ _ isDigDot _ _ _ hx (by decide) (by decide) (by decide)
  unfold stepC1 stepC1Jitter
  simp only [qlineT_data, nTp, nDl, nLs, nJt, nBufund, nAvgbuf, nBufstl, nBufvar]

end MpNada

namespace MpNada

/-- The second pass of parser C on a `"NADA packet loss: X%"` line writes
`float(X)` into the qualified `nada_loss` field and nothing else. -/
theorem stepC2_qlineN (x : List Char) (v : ℚ) (hne : x ≠ [])
    (hx : ∀ a ∈ x, isDigDot a = true) (hv : pyFloat x = some v) (st : StatsC) :
    stepC2 st (qlineN x) = Except.ok { st with nadaLoss := some v } := by
  have nAlttxp : searchAltCap ["NADA Tx Packets: ".data, "WebRTC Tx Packets: ".data] isDig []
      ("NADA packet loss: ".data ++ (x ++ "%".data)) = none :=
    searchAltCap_none_mid _ _ _ isDigDot _ _ _ hx (by decide) (by decide) (by decide)
  have nAltrxp : searchAltCap ["NADA Rx Packets: ".data, "WebRTC Rx Packets: ".data] isDig []
      ("NADA packet loss: ".data ++ (x ++ "%".data)) = none :=
    searchAltCap_none_mid _ _ _ isDigDot _ _ _ hx (by decide) (by decide) (by decide)
  have nAlttxb : searchAltCap ["NADA Tx Bytes: ".data, "WebRTC Tx Bytes: ".data] isDig []
      ("NADA packet loss: ".data ++ (x ++ "%".data)) = none :=
    searchAltCap_none_mid _ _ _ isDigDot _ _ _ hx (by decide) (by decide) (by decide)
  have nAltrxb : searchAltCap ["NADA Rx Bytes: ".data, "WebRTC Rx Bytes: ".data] isDig []
      ("NADA packet loss: ".data ++ (x ++ "%".data)) = none :=
    searchAltCap_none_mid _ _ _ isDigDot _ _ _ hx (by decide) (by decide) (by decide)
  have pLoss : searchAltCap ["NADA packet loss: ".data, "WebRTC packet loss: ".data]
      isDigDot "%".data ("NADA packet loss: ".data ++ (x ++ "%".data)) = some x :=
    searchAltCap_self_suffix _ _ _ _ _ hx hne (by decide)
  have hq : toQ x = Except.ok v := by simp [toQ, hv]
  unfold stepC2
  simp only [qlineN_data, nAlttxp, nAltrxp, nAlttxb, nAltrxb, pLoss, hq]
  rfl

/-- The second pass of parser C on a `"TCP packet loss: X%"` line writes
`float(X)` into the qualified `tcp_loss` field and nothing else. -/
theorem stepC2_qlineT (x : List Char) (v : ℚ) (hne : x ≠ [])
    (hx : ∀ a ∈ x, isDigDot a = true) (hv : pyFloat x = some v) (st : StatsC) :
    stepC2 st (qlineT x) = Except.ok { st with tcpLoss := some v } := by
  have nAlttxp : searchAltCap ["NADA Tx Packets: ".data, "WebRTC Tx Packets: ".data] isDig []
      ("TCP packet loss: ".data ++ (x ++ "%".data)) = none :=
    searchAltCap_none_mid _ _ _ isDigDot _ _ _ hx (by decide) (by decide) (by decide)
  have nAltrxp : searchAltCap ["NADA Rx Packets: ".data, "WebRTC Rx Packets: ".data] isDig []
      ("TCP packet loss: ".data ++ (x ++ "%".data)) = none :=
    searchAltCap_none_mid _ _ _ isDigDot _ _ _ hx (by decide) (by decide) (by decide)
  have nAlttxb : searchAltCap ["NADA Tx Bytes: ".data, "WebRTC Tx Bytes: ".data] isDig []
      ("TCP packet loss: ".data ++ (x ++ "%".data)) = none :=
    searchAltCap_none_mid _ _ _ isDigDot _ _ _ hx (by decide) (by decide) (by decide)
  have nAltrxb : searchAltCap ["NADA Rx Bytes: ".data, "WebRTC Rx Bytes: ".data] isDig []
      ("TCP packet loss: ".data ++ (x ++ "%".data)) = none :=
    searchAltCap_none_mid _ _ _ isDigDot _ _ _ hx (by decide) (by decide) (by decide)
  have nAltloss : searchAltCap ["NADA packet loss: ".data, "WebRTC packet loss: ".data]
      isDigDot "%".data ("TCP packet loss: ".data ++ (x ++ "%".data)) = none :=
    searchAltCap_none_mid _ _ _ isDigDot _ _ _ hx (by decide) (by decide) (by decide)
  have nAlteff : searchAltCap ["NADA efficiency: ".data, "WebRTC efficiency: ".data]
      isDigDot "%".data ("TCP packet loss: ".data ++ (x ++ "%".data)) = none :=
    searchAltCap_none_mid _ _ _ isDigDot _ _ _ hx (by decide) (by decide) (by decide)
  have nTxp : searchCap "TCP Tx Packets: ".data isDig []
      ("TCP packet loss: ".data ++ (x ++ "%".data)) = none :=
    searchCap_none_mid _ _ _ isDigDot _ _ _ hx (by decide) (by decide) (by decide)
  have nRxp : searchCap "TCP Rx Packets: ".data isDig []
      ("TCP packet loss: ".data ++ (x ++ "%".data)) = none :=
    searchCap_none_mid _ _ _ isDigDot _ _ _ hx (by decide) (by decide) (by decide)
  have nTxb : searchCap "TCP Tx Bytes: ".data isDig []
      ("TCP packet loss: ".data ++ (x ++ "%".data)) = none :=
    searchCap_none_mid _ _ _ isDigDot _ _ _ hx (by decide) (by decide) (by decide)
  have nRxb : searchCap "TCP Rx Bytes: ".data isDig []
      ("TCP packet loss: ".data ++ (x ++ "%".data)) = none :=
    searchCap_none_mid _ _ _ isDigDot _ _ _ hx (by decide) (by decide) (by decide)
  have pLoss : searchCap "TCP packet loss: ".data isDigDot "%".data
      ("TCP packet loss: ".data ++ (x ++ "%".data)) = some x :=
    searchCap_self_suffix _ _ _ _ hx hne (by decide)
  have hq : toQ x = Except.ok v := by simp [toQ, hv]
  unfold stepC2
  simp only [qlineT_data, nAlttxp, nAltrxp, nAlttxb, nAltrxb, nAltloss, nAlteff,
    nTxp, nRxp, nTxb, nRxb, pLoss, hq]
  rfl

/-- C3: a protocol-qualified loss line `"NADA packet loss: X%"` or
`"TCP packet loss: X%"` (with `X` a valid numeric capture) is never added
to the generic loss sequence in any parser variant — the generic
`"Packet loss: ([0-9.]+)%"` pattern cannot match it and, in the variant
with an explicit `startswith` guard, the guard additionally suppresses the
append — while in the qualified variant only the `nada_loss` / `tcp_loss`
field receives the value. -/
theorem qualified_loss_suppressed (x : List Char) (v : ℚ) (hne : x ≠ [])
    (hx : ∀ a ∈ x, isDigDot a = true) (hv : pyFloat x = some v) :
    (∀ st : StateA, stepA st (qlineN x) = Except.ok st ∧
      stepA st (qlineT x) = Except.ok st) ∧
    (∀ st : StateB, stepB st (qlineN x) = Except.ok st ∧
      stepB st (qlineT x) = Except.ok st) ∧
    (∀ st : StatsC, stepC1 st (qlineN x) = Except.ok st ∧
      stepC1 st (qlineT x) = Except.ok st ∧
      stepC2 st (qlineN x) = Except.ok { st with nadaLoss := some v } ∧
      stepC2 st (qlineT x) = Except.ok { st with tcpLoss := some v }) :=
  ⟨fun st => ⟨stepA_qlineN x hx st, stepA_qlineT x hx st⟩,
   fun st => ⟨stepB_qlineN x hx st, stepB_qlineT x hx st⟩,
   fun st => ⟨stepC1_qlineN x hx st, stepC1_qlineT x hx st,
     stepC2_qlineN x v hne hx hv st, stepC2_qlineT x v hne hx hv st⟩⟩

/-- C3 witness: the capture `"3"` (value 3) on the initial stats of the
qualified-fields variant, and on an arbitrary parser-A state. -/
theorem qualified_loss_suppressed_witness :
    stepA {} (qlineN ['3']) = Except.ok {} ∧
    stepC2 {} (qlineN ['3']) = Except.ok { ({} : StatsC) with nadaLoss := some 3 } ∧
    stepC2 {} (qlineT ['3']) = Except.ok { ({} : StatsC) with tcpLoss := some 3 } := by
  have h := qualified_loss_suppressed ['3'] 3 (by decide) (by decide) (by decide)
  exact ⟨(h.1 {}).1, (h.2.2 {}).2.2.1, (h.2.2 {}).2.2.2⟩

end MpNada

namespace MpNada

theorem searchCap_self_nil (lit : List Char) (cls : Char → Bool) (y : List Char)
    (hy : ∀ a ∈ y, cls a = true) (hne : y ≠ []) :
    searchCap lit cls [] (lit ++ y) = some y :=
  searchCap_eval lit cls [] y y (takeWhile_eq_self_of_all hy) hne (by simp [stripLit])

/-- The line `"Rate: X Mbps"`. -/
def plineRate (x : List Char) : String := ⟨"Rate: ".data ++ (x ++ " Mbps".data)⟩

/-- The line `"RTT: X ms"`. -/
def plineRtt (x : List Char) : String := ⟨"RTT: ".data ++ (x ++ " ms".data)⟩

/-- The line `"Packets sent: Y"`. -/
def plineSent (y : List Char) : String := ⟨"Packets sent: ".data ++ y⟩

/-- The line `"Packets acked: Y"`. -/
def plineAcked (y : List Char) : String := ⟨"Packets acked: ".data ++ y⟩

/-- The line `"Weight: X"`. -/
def plineWeight (x : List Char) : String := ⟨"Weight: ".data ++ x⟩

theorem plineRate_data (x : List Char) :
    (plineRate x).data = "Rate: ".data ++ (x ++ " Mbps".data) := rfl

theorem plineRtt_data (x : List Char) :
    (plineRtt x).data = "RTT: ".data ++ (x ++ " ms".data) := rfl

theorem plineSent_data (y : List Char) :
    (plineSent y).data = "Packets sent: ".data ++ y := rfl

theorem plineAcked_data (y : List Char) :
    (plineAcked y).data = "Packets acked: ".data ++ y := rfl

theorem plineWeight_data (x : List Char) :
    (plineWeight x).data = "Weight: ".data ++ x := rfl

/-- In path context `p`, a `"Rate: ..."` line updates exactly path `p`'s record. -/
theorem stepB_plineRate (st : StateB) (p : ℕ) (hcp : st.currentPath = some p)
    (x : List Char) (v : ℚ) (hxne : x ≠ []) (hx : ∀ a ∈ x, isDigDot a = true)
    (hv : pyFloat x = some v) :
    stepB st (plineRate x) = Except.ok { st with stats := { st.stats with
      paths := updPathB p (fun r => { r with rate := r.rate ++ [v] }) st.stats.paths } } := by
  have nTp : searchCap "Throughput: ".data isDigDot " Mbps".data
      ("Rate: ".data ++ (x ++ " Mbps".data)) = none :=
    searchCap_none_mid _ _ _ isDigDot _ _ _ hx (by decide) (by decide) (by decide)
  have nDl : searchCap "Mean delay: ".data isDigDotEM " seconds".data
      ("Rate: ".data ++ (x ++ " Mbps".data)) = none :=
    searchCap_none_mid _ _ _ isDigDot _ _ _ hx (by decide) (by decide) (by decide)
  have nLs : searchCap "Packet loss: ".data isDigDot "%".data
      ("Rate: ".data ++ (x ++ " Mbps".data)) = none :=
    searchCap_none_mid _ _ _ isDigDot _ _ _ hx (by decide) (by decide) (by decide)
  have nJt : searchCap "Mean jitter: ".data isDigDotEM " seconds".data
      ("Rate: ".data ++ (x ++ " Mbps".data)) = none :=
    searchCap_none_mid _ _ _ isDigDot _ _ _ hx (by decide) (by decide) (by decide)
  have nPath : searchCap "Path ".data isDig ":".data
      ("Rate: ".data ++ (x ++ " Mbps".data)) = none :=
    searchCap_none_mid _ _ _ isDigDot _ _ _ hx (by decide) (by decide) (by decide)
  have pSelf : searchCap "Rate: ".data isDigDot " Mbps".data
      ("Rate: ".data ++ (x ++ " Mbps".data)) = some x :=
    searchCap_self_suffix _ _ _ _ hx hxne (by decide)
  have hq : toQ x = Except.ok v := by simp [toQ, hv]
  unfold stepB stepBPath
  simp only [plineRate_data, nTp, nDl, nLs, nJt, nPath, pSelf , hq, hcp]
  rfl

/-- In path context `p`, a `"RTT: ..."` line updates exactly path `p`'s record. -/
theorem stepB_plineRtt (st : StateB) (p : ℕ) (hcp : st.currentPath = some p)
    (x : List Char) (v : ℚ) (hxne : x ≠ []) (hx : ∀ a ∈ x, isDigDot a = true)
    (hv : pyFloat x = some v) :
    stepB st (plineRtt x) = Except.ok { st with stats := { st.stats with
      paths := updPathB p (fun r => { r with rtt := r.rtt ++ [v] }) st.stats.paths } } := by
  have nTp : searchCap "Throughput: ".data isDigDot " Mbps".data
      ("RTT: ".data ++ (x ++ " ms".data)) = none :=
    searchCap_none_mid _ _ _ isDigDot _ _ _ hx (by decide) (by decide) (by decide)
  have nDl : searchCap "Mean delay: ".data isDigDotEM " seconds".data
      ("RTT: ".data ++ (x ++ " ms".data)) = none :=
    searchCap_none_mid _ _ _ isDigDot _ _ _ hx (by decide) (by decide) (by decide)
  have nLs : searchCap "Packet loss: ".data isDigDot "%".data
      ("RTT: ".data ++ (x ++ " ms".data)) = none :=
    searchCap_none_mid _ _ _ isDigDot _ _ _ hx (by decide) (by decide) (by decide)
  have nJt : searchCap "Mean jitter: ".data isDigDotEM " seconds".data
      ("RTT: ".data ++ (x ++ " ms".data)) = none :=
    searchCap_none_mid _ _ _ isDigDot _ _ _ hx (by decide) (by decide) (by decide)
  have nPath : searchCap "Path ".data isDig ":".data
      ("RTT: ".data ++ (x ++ " ms".data)) = none :=
    searchCap_none_mid _ _ _ isDigDot _ _ _ hx (by decide) (by decide) (by decide)
  have nRate : searchCap "Rate: ".data isDigDot " Mbps".data
      ("RTT: ".data ++ (x ++ " ms".data)) = none :=
    searchCap_none_mid _ _ _ isDigDot _ _ _ hx (by decide) (by decide) (by decide)
  have pSelf : searchCap "RTT: ".data isDigDot " ms".data
      ("RTT: ".data ++ (x ++ " ms".data)) = some x :=
    searchCap_self_suffix _ _ _ _ hx hxne (by decide)
  have hq : toQ x = Except.ok v := by simp [toQ, hv]
  unfold stepB stepBPath
  simp only [plineRtt_data, nTp, nDl, nLs, nJt, nPath, nRate, pSelf , hq, hcp]
  rfl

/-- In path context `p`, a `"Packets sent: ..."` line updates exactly path `p`'s record. -/
theorem stepB_plineSent (st : StateB) (p : ℕ) (hcp : st.currentPath = some p)
    (y : List Char) (hyne : y ≠ []) (hy : ∀ a ∈ y, isDig a = true) :
    stepB st (plineSent y) = Except.ok { st with stats := { st.stats with
      paths := updPathB p (fun r => { r with sent := natOfDigits y }) st.stats.paths } } := by
  have nTp : searchCap "Throughput: ".data isDigDot " Mbps".data
      ("Packets sent: ".data ++ y) = none := by
    have h := searchCap_none_mid "Throughput: ".data isDigDot " Mbps".data isDig "Packets sent: ".data y [] hy (by decide) (by decide) (by decide)
    simpa using h
  have nDl : searchCap "Mean delay: ".data isDigDotEM " seconds".data
      ("Packets sent: ".data ++ y) = none := by
    have h := searchCap_none_mid "Mean delay: ".data isDigDotEM " seconds".data isDig "Packets sent: ".data y [] hy (by decide) (by decide) (by decide)
    simpa using h
  have nLs : searchCap "Packet loss: ".data isDigDot "%".data
      ("Packets sent: ".data ++ y) = none := by
    have h := searchCap_none_mid "Packet loss: ".data isDigDot "%".data isDig "Packets sent: ".data y [] hy (by decide) (by decide) (by decide)
    simpa using h
  have nJt : searchCap "Mean jitter: ".data isDigDotEM " seconds".data
      ("Packets sent: ".data ++ y) = none := by
    have h := searchCap_none_mid "Mean jitter: ".data isDigDotEM " seconds".data isDig "Packets sent: ".data y [] hy (by decide) (by decide) (by decide)
    simpa using h
  have nPath : searchCap "Path ".data isDig ":".data
      ("Packets sent: ".data ++ y) = none := by
    have h := searchCap_none_mid "Path ".data isDig ":".data isDig "Packets sent: ".data y [] hy (by decide) (by decide) (by decide)
    simpa using h
  have nRate : searchCap "Rate: ".data isDigDot " Mbps".data
      ("Packets sent: ".data ++ y) = none := by
    have h := searchCap_none_mid "Rate: ".data isDigDot " Mbps".data isDig "Packets sent: ".data y [] hy (by decide) (by decide) (by decide)
    simpa using h
  have nRtt : searchCap "RTT: ".data isDigDot " ms".data
      ("Packets sent: ".data ++ y) = none := by
    have h := searchCap_none_mid "RTT: ".data isDigDot " ms".data isDig "Packets sent: ".data y [] hy (by decide) (by decide) (by decide)
    simpa using h
  have pSelf : searchCap "Packets sent: ".data isDig []
      ("Packets sent: ".data ++ y) = some y :=
    searchCap_self_nil _ _ _ hy hyne
  unfold stepB stepBPath
  simp only [plineSent_data, nTp, nDl, nLs, nJt, nPath, nRate, nRtt, pSelf, hcp]

/-- In path context `p`, a `"Packets acked: ..."` line updates exactly path `p`'s record. -/
theorem stepB_plineAcked (st : StateB) (p : ℕ) (hcp : st.currentPath = some p)
    (y : List Char) (hyne : y ≠ []) (hy : ∀ a ∈ y, isDig a = true) :
    stepB st (plineAcked y) = Except.ok { st with stats := { st.stats with
      paths := updPathB p (fun r => { r with acked := natOfDigits y }) st.stats.paths } } := by
  have nTp : searchCap "Throughput: ".data isDigDot " Mbps".data
      ("Packets acked: ".data ++ y) = none := by
    have h := searchCap_none_mid "Throughput: ".data isDigDot " Mbps".data isDig "Packets acked: ".data y [] hy (by decide) (by decide) (by decide)
    simpa using h
  have nDl : searchCap "Mean delay: ".data isDigDotEM " seconds".data
      ("Packets acked: ".data ++ y) = none := by
    have h := searchCap_none_mid "Mean delay: ".data isDigDotEM " seconds".data isDig "Packets acked: ".data y [] hy (by decide) (by decide) (by decide)
    simpa using h
  have nLs : searchCap "Packet loss: ".data isDigDot "%".data
      ("Packets acked: ".data ++ y) = none := by
    have h := searchCap_none_mid "Packet loss: ".data isDigDot "%".data isDig "Packets acked: ".data y [] hy (by decide) (by decide) (by decide)
    simpa using h
  have nJt : searchCap "Mean jitter: ".data isDigDotEM " seconds".data
      ("Packets acked: ".data ++ y) = none := by
    have h := searchCap_none_mid "Mean jitter: ".data isDigDotEM " seconds".data isDig "Packets acked: ".data y [] hy (by decide) (by decide) (by decide)
    simpa using h
  have nPath : searchCap "Path ".data isDig ":".data
      ("Packets acked: ".data ++ y) = none := by
    have h := searchCap_none_mid "Path ".data isDig ":".data isDig "Packets acked: ".data y [] hy (by decide) (by decide) (by decide)
    simpa using h
  have nRate : searchCap "Rate: ".data isDigDot " Mbps".data
      ("Packets acked: ".data ++ y) = none := by
    have h := searchCap_none_mid "Rate: ".data isDigDot " Mbps".data isDig "Packets acked: ".data y [] hy (by decide) (by decide) (by decide)
    simpa using h
  have nRtt : searchCap "RTT: ".data isDigDot " ms".data
      ("Packets acked: ".data ++ y) = none := by
    have h := searchCap_none_mid "RTT: ".data isDigDot " ms".data isDig "Packets acked: ".data y [] hy (by decide) (by decide) (by decide)
    simpa using h
  have nSent : searchCap "Packets sent: ".data isDig []
      ("Packets acked: ".data ++ y) = none := by
    have h := searchCap_none_mid "Packets sent: ".data isDig [] isDig "Packets acked: ".data y [] hy (by decide) (by decide) (by decide)
    simpa using h
  have pSelf : searchCap "Packets acked: ".data isDig []
      ("Packets acked: ".data ++ y) = some y :=
    searchCap_self_nil _ _ _ hy hyne
  unfold stepB stepBPath
  simp only [plineAcked_data, nTp, nDl, nLs, nJt, nPath, nRate, nRtt, nSent, pSelf, hcp]

/-- In path context `p`, a `"Weight: ..."` line updates exactly path `p`'s record. -/
theorem stepB_plineWeight (st : StateB) (p : ℕ) (hcp : st.currentPath = some p)
    (x : List Char) (v : ℚ) (hxne : x ≠ []) (hx : ∀ a ∈ x, isDigDot a = true)
    (hv : pyFloat x = some v) :
    stepB st (plineWeight x) = Except.ok { st with stats := { st.stats with
      paths := updPathB p (fun r => { r with weight := v }) st.stats.paths } } := by
  have nTp : searchCap "Throughput: ".data isDigDot " Mbps".data
      ("Weight: ".data ++ x) = none := by
    have h := searchCap_none_mid "Throughput: ".data isDigDot " Mbps".data isDigDot "Weight: ".data x [] hx (by decide) (by decide) (by decide)
    simpa using h
  have nDl : searchCap "Mean delay: ".data isDigDotEM " seconds".data
      ("Weight: ".data ++ x) = none := by
    have h := searchCap_none_mid "Mean delay: ".data isDigDotEM " seconds".data isDigDot "Weight: ".data x [] hx (by decide) (by decide) (by decide)
    simpa using h
  have nLs : searchCap "Packet loss: ".data isDigDot "%".data
      ("Weight: ".data ++ x) = none := by
    have h := searchCap_none_mid "Packet loss: ".data isDigDot "%".data isDigDot "Weight: ".data x [] hx (by decide) (by decide) (by decide)
    simpa using h
  have nJt : searchCap "Mean jitter: ".data isDigDotEM " seconds".data
      ("Weight: ".data ++ x) = none := by
    have h := searchCap_none_mid "Mean jitter: ".data isDigDotEM " seconds".data isDigDot "Weight: ".data x [] hx (by decide) (by decide) (by decide)
    simpa using h
  have nPath : searchCap "Path ".data isDig ":".data
      ("Weight: ".data ++ x) = none := by
    have h := searchCap_none_mid "Path ".data isDig ":".data isDigDot "Weight: ".data x [] hx (by decide) (by decide) (by decide)
    simpa using h
  have nRate : searchCap "Rate: ".data isDigDot " Mbps".data
      ("Weight: ".data ++ x) = none := by
    have h := searchCap_none_mid "Rate: ".data isDigDot " Mbps".data isDigDot "Weight: ".data x [] hx (by decide) (by decide) (by decide)
    simpa using h
  have nRtt : searchCap "RTT: ".data isDigDot " ms".data
      ("Weight: ".data ++ x) = none := by
    have h := searchCap_none_mid "RTT: ".data isDigDot " ms".data isDigDot "Weight: ".data x [] hx (by decide) (by decide) (by decide)
    simpa using h
  have nSent : searchCap "Packets sent: ".data isDig []
      ("Weight: ".data ++ x) = none := by
    have h := searchCap_none_mid "Packets sent: ".data isDig [] isDigDot "Weight: ".data x [] hx (by decide) (by decide) (by decide)
    simpa using h
  have nAcked : searchCap "Packets acked: ".data isDig []
      ("Weight: ".data ++ x) = none := by
    have h := searchCap_none_mid "Packets acked: ".data isDig [] isDigDot "Weight: ".data x [] hx (by decide) (by decide) (by decide)
    simpa using h
  have pSelf : searchCap "Weight: ".data isDigDot []
      ("Weight: ".data ++ x) = some x :=
    searchCap_self_nil _ _ _ hx hxne
  have hq : toQ x = Except.ok v := by simp [toQ, hv]
  unfold stepB stepBPath
  simp only [plineWeight_data, nTp, nDl, nLs, nJt, nPath, nRate, nRtt, nSent, nAcked, pSelf , hq, hcp]
  rfl

end MpNada

namespace MpNada

theorem updPathB_updPathB (p : ℕ) (f g : PathRecB → PathRecB) (l : List (ℕ × PathRecB)) :
    updPathB p f (updPathB p g l) = updPathB p (fun r => f (g r)) l := by
  simp only [updPathB, List.map_map]
  refine List.map_congr_left (fun kv _ => ?_)
  by_cases h : kv.1 = p <;> simp [h, Function.comp]

/-- C8: within a path context (`current_path = p`), a matching
`Packets sent` / `Packets acked` / `Weight` line overwrites the path's
`sent`/`acked`/`weight` field — the update discards the previous value, so
the last value in the transcript wins, as the two-line `Packets sent`
conjunct shows — while a matching `Rate` / `RTT` line appends to the
path's `rate`/`rtt` sequence, preserving transcript order, as the
two-line `Rate` conjunct shows. -/
theorem perpath_overwrite_and_append
    (st : StateB) (p : ℕ) (hcp : st.currentPath = some p)
    (x x' : List Char) (v v' : ℚ)
    (hxne : x ≠ []) (hx : ∀ a ∈ x, isDigDot a = true) (hv : pyFloat x = some v)
    (hx'ne : x' ≠ []) (hx' : ∀ a ∈ x', isDigDot a = true) (hv' : pyFloat x' = some v')
    (y y' : List Char)
    (hyne : y ≠ []) (hy : ∀ a ∈ y, isDig a = true)
    (hy'ne : y' ≠ []) (hy' : ∀ a ∈ y', isDig a = true) :
    stepB st (plineRate x) = Except.ok { st with stats := { st.stats with
      paths := updPathB p (fun r => { r with rate := r.rate ++ [v] }) st.stats.paths } } ∧
    stepB st (plineRtt x) = Except.ok { st with stats := { st.stats with
      paths := updPathB p (fun r => { r with rtt := r.rtt ++ [v] }) st.stats.paths } } ∧
    stepB st (plineSent y) = Except.ok { st with stats := { st.stats with
      paths := updPathB p (fun r => { r with sent := natOfDigits y }) st.stats.paths } } ∧
    stepB st (plineAcked y) = Except.ok { st with stats := { st.stats with
      paths := updPathB p (fun r => { r with acked := natOfDigits y }) st.stats.paths } } ∧
    stepB st (plineWeight x) = Except.ok { st with stats := { st.stats with
      paths := updPathB p (fun r => { r with weight := v }) st.stats.paths } } ∧
    List.foldlM stepB st [plineSent y, plineSent y'] = Except.ok { st with stats := { st.stats with
      paths := updPathB p (fun r => { r with sent := natOfDigits y' }) st.stats.paths } } ∧
    List.foldlM stepB st [plineRate x, plineRate x'] = Except.ok { st with stats := { st.stats with
      paths := updPathB p (fun r => { r with rate := r.rate ++ [v, v'] }) st.stats.paths } } := by
  refine ⟨stepB_plineRate st p hcp x v hxne hx hv,
    stepB_plineRtt st p hcp x v hxne hx hv,
    stepB_plineSent st p hcp y hyne hy,
    stepB_plineAcked st p hcp y hyne hy,
    stepB_plineWeight st p hcp x v hxne hx hv, ?_, ?_⟩
  · have h1 := stepB_plineSent st p hcp y hyne hy
    have h2 := stepB_plineSent { st with stats := { st.stats with
        paths := updPathB p (fun r => { r with sent := natOfDigits y }) st.stats.paths } }
      p hcp y' hy'ne hy'
    rw [List.foldlM_cons, h1]
    show List.foldlM stepB _ [plineSent y'] = _
    rw [List.foldlM_cons, h2]
    show Except.ok _ = _
    rw [updPathB_updPathB]
  · have h1 := stepB_plineRate st p hcp x v hxne hx hv
    have h2 := stepB_plineRate { st with stats := { st.stats with
        paths := updPathB p (fun r => { r with rate := r.rate ++ [v] }) st.stats.paths } }
      p hcp x' v' hx'ne hx' hv'
    rw [List.foldlM_cons, h1]
    show List.foldlM stepB _ [plineRate x'] = _
    rw [List.foldlM_cons, h2]
    show Except.ok _ = _
    rw [updPathB_updPathB]
    simp

/-- C8 witness: in the context of path 1, `"Packets sent: 7"` overwrites
the `sent` counter of path 1's record with 7. -/
theorem perpath_overwrite_and_append_witness :
    stepB ⟨{ paths := [(1, {})] }, some 1⟩ (plineSent ['7']) =
      Except.ok ⟨{ paths := [(1, { sent := 7 })] }, some 1⟩ := by
  have h := (perpath_overwrite_and_append ⟨{ paths := [(1, {})] }, some 1⟩ 1 rfl
    ['2'] ['2'] 2 2 (by decide) (by decide) (by decide) (by decide) (by decide) (by decide)
    ['7'] ['7'] (by decide) (by decide) (by decide) (by decide)).2.2.1
  rw [h]
  rfl

end MpNada

namespace MpNada

/-! ## Claims C5 and C9: the carry-over state of parser A -/

/-- The id captured by a line that parser A treats as a path header: the
`"Path (\d+):"` pattern matches and none of the four scalar patterns
tested before it does. -/
def headerOfA (line : String) : Option ℕ :=
  let l := line.data
  if (searchCap "Throughput: ".data isDigDot " Mbps".data l).isSome
      || (searchCap "Mean delay: ".data isDigDotEM " seconds".data l).isSome
      || (searchCap "Packet loss: ".data isDigDot "%".data l).isSome
      || (searchCap "Mean jitter: ".data isDigDotEM " seconds".data l).isSome
  then none
  else (searchCap "Path ".data isDig ":".data l).map natOfDigits

/-- The id of the most recently seen header: starts at `cur`, is updated
at every header line, and is never reset. -/
def lastHeaderA (cur : Option ℕ) (lines : List String) : Option ℕ :=
  lines.foldl (fun c l =>
    match headerOfA l with
    | some n => some n
    | none => c) cur

/-- The insertion-ordered key set of the `paths` dictionary. -/
def keysA (st : StateA) : List ℕ := st.stats.paths.map (fun kv => kv.1)

/-- Lazy creation: append a key only when it is new. -/
def insertNew (ks : List ℕ) (n : ℕ) : List ℕ := if n ∈ ks then ks else ks ++ [n]

/-- The key set produced by the header lines alone. -/
def headerKeysA (ks : List ℕ) (lines : List String) : List ℕ :=
  lines.foldl (fun acc l =>
    match headerOfA l with
    | some n => insertNew acc n
    | none => acc) ks

theorem bindA_err {c : List Char} {k : ℚ → Except PyErr StateA} {st' : StateA}
    (hq : pyFloat c = none) (h : (toQ c >>= k) = Except.ok st') : False := by
  rw [show toQ c = Except.error PyErr.valueError from by simp [toQ, hq]] at h
  exact Except.noConfusion h

theorem bindA_ok {c : List Char} {v : ℚ} {k : ℚ → Except PyErr StateA} {st' : StateA}
    (hq : pyFloat c = some v) (h : (toQ c >>= k) = Except.ok st') : k v = Except.ok st' := by
  rw [show toQ c = Except.ok v from by simp [toQ, hq]] at h
  exact h

theorem lookup_isSome_iff {β : Type} {p : ℕ} {l : List (ℕ × β)} :
    (List.lookup p l).isSome = true ↔ p ∈ l.map (fun kv => kv.1) := by
  induction l with
  | nil => simp [List.lookup]
  | cons kv t ih =>
    by_cases hp : p = kv.1
    · simp [List.lookup, hp]
    · have : (p == kv.1) = false := by simpa using hp
      simp [List.lookup, this, ih, hp]

theorem keysA_updPathA (p : ℕ) (f : PathRecA → PathRecA) (l : List (ℕ × PathRecA)) :
    (updPathA p f l).map (fun kv => kv.1) = l.map (fun kv => kv.1) := by
  simp only [updPathA, List.map_map]
  refine List.map_congr_left (fun kv _ => ?_)
  by_cases h : kv.1 = p <;> simp [h]

theorem stepATail_state {st st' : StateA} {l : List Char}
    (h : stepATail st l = Except.ok st') :
    st'.currentPath = st.currentPath ∧ keysA st' = keysA st := by
  unfold stepATail at h
  cases hsw : searchCap2 "Path switch: from path ".data isDig " to path ".data isDig l with
  | some c =>
    rw [hsw] at h
    obtain rfl := Except.ok.inj h
    exact ⟨rfl, rfl⟩
  | none =>
    rw [hsw] at h
    cases hqc : searchCap2 "Quality changed: ".data isDigDot " -> ".data isDigDot l with
    | some c =>
      rw [hqc] at h
      obtain ⟨c1, c2⟩ := c
      cases hq1 : pyFloat c1 with
      | none => exact absurd h (fun h => bindA_err hq1 h)
      | some v1 =>
        replace h := bindA_ok hq1 h
        cases hq2 : pyFloat c2 with
        | none => exact absurd h (fun h => bindA_err hq2 h)
        | some v2 =>
          replace h := bindA_ok hq2 h
          obtain rfl := Except.ok.inj h
          exact ⟨rfl, rfl⟩
    | none =>
      rw [hqc] at h
      cases hen : searchCap "Energy efficiency: ".data isDigDot "%".data l with
      | some c =>
        rw [hen] at h
        cases hq : pyFloat c with
        | none => exact absurd h (fun h => bindA_err hq h)
        | some v =>
          replace h := bindA_ok hq h
          obtain rfl := Except.ok.inj h
          exact ⟨rfl, rfl⟩
      | none =>
        rw [hen] at h
        obtain rfl := Except.ok.inj h
        exact ⟨rfl, rfl⟩

theorem stepAPath_state {st st' : StateA} {p : ℕ} {l : List Char}
    (h : stepAPath st p l = Except.ok st') :
    st'.currentPath = st.currentPath ∧ keysA st' = keysA st := by
  unfold stepAPath at h
  cases hra : searchCap "Rate: ".data isDigDot " Mbps".data l with
  | some c =>
    rw [hra] at h
    cases hq : pyFloat c with
    | none => exact absurd h (fun h => bindA_err hq h)
    | some v =>
      replace h := bindA_ok hq h
      obtain rfl := Except.ok.inj h
      exact ⟨rfl, by simp [keysA, keysA_updPathA]⟩
  | none =>
    rw [hra] at h
    cases hrt : searchCap "RTT: ".data isDigDot " ms".data l with
    | some c =>
      rw [hrt] at h
      cases hq : pyFloat c with
      | none => exact absurd h (fun h => bindA_err hq h)
      | some v =>
        replace h := bindA_ok hq h
        obtain rfl := Except.ok.inj h
        exact ⟨rfl, by simp [keysA, keysA_updPathA]⟩
    | none =>
      rw [hrt] at h
      cases hps : searchCap "Packets sent: ".data isDig [] l with
      | some c =>
        rw [hps] at h
        obtain rfl := Except.ok.inj h
        exact ⟨rfl, by simp [keysA, keysA_updPathA]⟩
      | none =>
        rw [hps] at h
        cases hpa : searchCap "Packets acked: ".data isDig [] l with
        | some c =>
          rw [hpa] at h
          obtain rfl := Except.ok.inj h
          exact ⟨rfl, by simp [keysA, keysA_updPathA]⟩
        | none =>
          rw [hpa] at h
          exact stepATail_state h

end MpNada

namespace MpNada

theorem stepA_header_state {st st' : StateA} {line : String}
    (h : stepA st line = Except.ok st') :
    st'.currentPath = (match headerOfA line with
      | some n => some n
      | none => st.currentPath) ∧
    keysA st' = (match headerOfA line with
      | some n => insertNew (keysA st) n
      | none => keysA st) := by
  unfold stepA at h
  cases htp : searchCap "Throughput: ".data isDigDot " Mbps".data line.data with
  | some c =>
    simp only [htp] at h
    have hdr : headerOfA line = none := by simp [headerOfA, htp]
    cases hq : pyFloat c with
    | none => exact absurd h (fun h => bindA_err hq h)
    | some v =>
      replace h := bindA_ok hq h
      obtain rfl := Except.ok.inj h
      simp [hdr, keysA]
  | none =>
    simp only [htp] at h
    cases hdl : searchCap "Mean delay: ".data isDigDotEM " seconds".data line.data with
    | some c =>
      simp only [hdl] at h
      have hdr : headerOfA line = none := by simp [headerOfA, hdl]
      cases hq : pyFloat c with
      | none => exact absurd h (fun h => bindA_err hq h)
      | some v =>
        replace h := bindA_ok hq h
        obtain rfl := Except.ok.inj h
        simp [hdr, keysA]
    | none =>
      simp only [hdl] at h
      cases hls : searchCap "Packet loss: ".data isDigDot "%".data line.data with
      | some c =>
        simp only [hls] at h
        have hdr : headerOfA line = none := by simp [headerOfA, hls]
        cases hq : pyFloat c with
        | none => exact absurd h (fun h => bindA_err hq h)
        | some v =>
          replace h := bindA_ok hq h
          obtain rfl := Except.ok.inj h
          simp [hdr, keysA]
      | none =>
        simp only [hls] at h
        cases hjt : searchCap "Mean jitter: ".data isDigDotEM " seconds".data line.data with
        | some c =>
          simp only [hjt] at h
          have hdr : headerOfA line = none := by simp [headerOfA, hjt]
          cases hq : pyFloat c with
          | none => exact absurd h (fun h => bindA_err hq h)
          | some v =>
            replace h := bindA_ok hq h
            obtain rfl := Except.ok.inj h
            simp [hdr, keysA]
        | none =>
          simp only [hjt] at h
          cases hph : searchCap "Path ".data isDig ":".data line.data with
          | some c =>
            simp only [hph] at h
            have hdr : headerOfA line = some (natOfDigits c) := by
              simp [headerOfA, htp, hdl, hls, hjt, hph]
            obtain rfl := Except.ok.inj h
            refine ⟨by simp [hdr], ?_⟩
            simp only [hdr]
            by_cases hmem : (List.lookup (natOfDigits c) st.stats.paths).isSome = true
            · have hin : natOfDigits c ∈ keysA st := lookup_isSome_iff.mp hmem
              simp only [keysA] at hin
              simp only [keysA, insertNew]
              rw [if_pos hin, if_pos hmem]
            · have hnin : natOfDigits c ∉ keysA st := fun hm =>
                hmem (lookup_isSome_iff.mpr hm)
              simp only [keysA] at hnin
              simp only [keysA, insertNew]
              rw [if_neg hnin, if_neg hmem]
              simp
          | none =>
            simp only [hph] at h
            have hdr : headerOfA line = none := by
              simp [headerOfA, htp, hdl, hls, hjt, hph]
            simp only [hdr]
            cases hcp : st.currentPath with
            | some p =>
              simp only [hcp] at h
              have hs := stepAPath_state h
              exact ⟨hs.1.trans hcp, hs.2⟩
            | none =>
              simp only [hcp] at h
              have hs := stepATail_state h
              exact ⟨hs.1.trans hcp, hs.2⟩


end MpNada

namespace MpNada

theorem foldA_state (lines : List String) :
    ∀ st0 st' : StateA, List.foldlM stepA st0 lines = Except.ok st' →
    st'.currentPath = lastHeaderA st0.currentPath lines ∧
    keysA st' = headerKeysA (keysA st0) lines := by
  induction lines with
  | nil =>
    intro st0 st' h
    obtain rfl := Except.ok.inj h
    exact ⟨rfl, rfl⟩
  | cons l ls ih =>
    intro st0 st' h
    rw [List.foldlM_cons] at h
    cases hs : stepA st0 l with
    | error e =>
      rw [hs] at h
      exact Except.noConfusion h
    | ok st1 =>
      rw [hs] at h
      have h' : List.foldlM stepA st1 ls = Except.ok st' := h
      have hstep := stepA_header_state hs
      have hrest := ih st1 st' h'
      constructor
      · rw [hrest.1, hstep.1]
        rfl
      · rw [hrest.2, hstep.2]
        rfl

theorem stepA_plineSent (st : StateA) (p : ℕ) (hcp : st.currentPath = some p)
    (y : List Char) (hyne : y ≠ []) (hy : ∀ a ∈ y, isDig a = true) :
    stepA st (plineSent y) = Except.ok { st with stats := { st.stats with
      paths := updPathA p (fun r => { r with sent := natOfDigits y }) st.stats.paths } } := by
  have nTp : searchCap "Throughput: ".data isDigDot " Mbps".data
      ("Packets sent: ".data ++ y) = none := by
    have h := searchCap_none_mid "Throughput: ".data isDigDot " Mbps".data isDig
      "Packets sent: ".data y [] hy (by decide) (by decide) (by decide)
    simpa using h
  have nDl : searchCap "Mean delay: ".data isDigDotEM " seconds".data
      ("Packets sent: ".data ++ y) = none := by
    have h := searchCap_none_mid "Mean delay: ".data isDigDotEM " seconds".data isDig
      "Packets sent: ".data y [] hy (by decide) (by decide) (by decide)
    simpa using h
  have nLs : searchCap "Packet loss: ".data isDigDot "%".data
      ("Packets sent: ".data ++ y) = none := by
    have h := searchCap_none_mid "Packet loss: ".data isDigDot "%".data isDig
      "Packets sent: ".data y [] hy (by decide) (by decide) (by decide)
    simpa using h
  have nJt : searchCap "Mean jitter: ".data isDigDotEM " seconds".data
      ("Packets sent: ".data ++ y) = none := by
    have h := searchCap_none_mid "Mean jitter: ".data isDigDotEM " seconds".data isDig
      "Packets sent: ".data y [] hy (by decide) (by decide) (by decide)
    simpa using h
  have nPath : searchCap "Path ".data isDig ":".data
      ("Packets sent: ".data ++ y) = none := by
    have h := searchCap_none_mid "Path ".data isDig ":".data isDig
      "Packets sent: ".data y [] hy (by decide) (by decide) (by decide)
    simpa using h
  have nRate : searchCap "Rate: ".data isDigDot " Mbps".data
      ("Packets sent: ".data ++ y) = none := by
    have h := searchCap_none_mid "Rate: ".data isDigDot " Mbps".data isDig
      "Packets sent: ".data y [] hy (by decide) (by decide) (by decide)
    simpa using h
  have nRtt : searchCap "RTT: ".data isDigDot " ms".data
      ("Packets sent: ".data ++ y) = none := by
    have h := searchCap_none_mid "RTT: ".data isDigDot " ms".data isDig
      "Packets sent: ".data y [] hy (by decide) (by decide) (by decide)
    simpa using h
  have pSelf : searchCap "Packets sent: ".data isDig []
      ("Packets sent: ".data ++ y) = some y :=
    searchCap_self_nil _ _ _ hy hyne
  unfold stepA stepAPath
  simp only [plineSent_data, nTp, nDl, nLs, nJt, nPath, nRate, nRtt, pSelf, hcp]

/-- C9: for every parse of parser A, the carry-over `current_path` is
`None` before the first path-header line and afterwards always equals the
id of the most recently seen header (`lastHeaderA` starts at `None`, is
set at each header and never reset); consequently a later
`"Packets sent: N"` line appearing anywhere in the rest of the transcript
— even one intended as a global counter — is written into the most
recently named path's record. -/
theorem current_path_tracks_last_header :
    (∀ (lines : List String) (st : StateA), runA lines = Except.ok st →
      st.currentPath = lastHeaderA none lines) ∧
    (∀ (lines : List String) (st : StateA) (p : ℕ) (y : List Char),
      runA lines = Except.ok st → st.currentPath = some p → y ≠ [] →
      (∀ a ∈ y, isDig a = true) →
      runA (lines ++ [plineSent y]) = Except.ok { st with stats := { st.stats with
        paths := updPathA p (fun r => { r with sent := natOfDigits y }) st.stats.paths } }) := by
  constructor
  · intro lines st h
    exact (foldA_state lines {} st h).1
  · intro lines st p y hrun hcp hyne hy
    show List.foldlM stepA {} (lines ++ [plineSent y]) = _
    rw [List.foldlM_append]
    rw [show List.foldlM stepA {} lines = Except.ok st from hrun]
    show List.foldlM stepA st [plineSent y] = _
    rw [List.foldlM_cons, stepA_plineSent st p hcp y hyne hy]
    rfl

/-- C9 witness: after the single header `"Path 2:"` the current path is 2,
and a following `"Packets sent: 7"` line is credited to path 2's record. -/
theorem current_path_tracks_last_header_witness :
    (⟨{ paths := [(2, {})] }, some 2⟩ : StateA).currentPath =
      lastHeaderA none ["Path 2:"] ∧
    runA (["Path 2:"] ++ [plineSent ['7']]) = Except.ok
      ⟨{ paths := [(2, { sent := 7 })] }, some 2⟩ := by
  constructor
  · exact current_path_tracks_last_header.1 ["Path 2:"] _ rfl
  · have h := current_path_tracks_last_header.2 ["Path 2:"]
      ⟨{ paths := [(2, {})] }, some 2⟩ 2 ['7'] rfl rfl (by decide) (by decide)
    rw [h]
    rfl

/-- C5: a Path Record is created lazily at the first `"Path N:"` header,
is never removed, and a repeated header reuses the existing record (the
key set of `paths` after any parse is exactly the fold of `insertNew` over
the header ids, so each id occurs once, in first-sighting order); a
transcript with two `"Path 1:"` blocks separated by other metric lines
yields a single record for id 1 whose rate and rtt sequences hold the
samples of both blocks in transcript order. -/
theorem path_record_lazy_never_removed :
    (∀ (lines : List String) (st : StateA), runA lines = Except.ok st →
      keysA st = headerKeysA [] lines) ∧
    runA ["Path 1:", "  Rate: 5 Mbps", "  RTT: 40 ms", "Throughput: 10 Mbps",
      "Path 1:", "  Rate: 6 Mbps", "  RTT: 42 ms"] = Except.ok
      ⟨{ throughput := [10], paths := [(1, { rate := [5, 6], rtt := [40, 42] })] }, some 1⟩ := by
  constructor
  · intro lines st h
    exact (foldA_state lines {} st h).2
  · rfl

/-- C5 witness: two consecutive `"Path 2:"` headers create exactly one
record, keyed 2. -/
theorem path_record_lazy_never_removed_witness :
    keysA (⟨{ paths := [(2, {})] }, some 2⟩ : StateA) =
      headerKeysA [] ["Path 2:", "Path 2:"] :=
  path_record_lazy_never_removed.1 ["Path 2:", "Path 2:"] _ rfl

end MpNada
